import Mathlib

/-!
Verification of the text-to-SQL pipeline (`text_to_sql.py`).

Shallow embedding conventions:
* Python strings are `List Char`; slicing, `find`, `split`, `strip`,
  `splitlines` and `join` are re-implemented below with Python's semantics
  (restricted to the ASCII whitespace / line-break characters).
* The two collaborator services (the Ollama chat-completion endpoint and the
  Access data endpoint) are modelled as explicit oracle functions supplied to
  each operation; the oracles may depend on the attempt number so that
  distinct rounds of the retry loop may observe distinct responses.
* `self.table_schemas` is an association list updated by `fetch_schema`;
  dictionary assignment is modelled by a shadowing cons.
* Fallible operations return `Option`; the `except` handlers that turn an
  in-function exception into `None` are modelled by returning `none` on the
  corresponding path.
-/

namespace TextToSql

/-! ### Python string primitives -/

/-- Python whitespace (`str.strip` with no argument), ASCII part. -/
def pyIsSpace (c : Char) : Bool :=
  c = ' ' || c = '\t' || c = '\n' || c = '\r' || c = '\x0b' || c = '\x0c'

/-- Characters treated as line boundaries by `str.splitlines` (ASCII part;
`"\r\n"` is treated as a single boundary below). -/
def isLineBreak (c : Char) : Bool :=
  c = '\n' || c = '\r' || c = '\x0b' || c = '\x0c'

/-- Whether `sub` is a prefix of `l`, i.e. Python `l.startswith(sub)`. -/
def pyStartsWith : List Char → List Char → Bool
  | [], _ => true
  | _ :: _, [] => false
  | a :: as, b :: bs => if a = b then pyStartsWith as bs else false

/-- First index of an occurrence of `sub` in `l` (Python `l.find(sub)` for a
non-empty `sub`), as an `Option` instead of `-1`. -/
def pyFindAux (sub : List Char) : List Char → Option Nat
  | [] => none
  | c :: rest =>
    if pyStartsWith sub (c :: rest) then some 0
    else (pyFindAux sub rest).map (· + 1)

/-- Python `s.find(sub, start)` for a non-empty `sub`. -/
def pyFind (s sub : List Char) (start : Nat) : Option Nat :=
  (pyFindAux sub (s.drop start)).map (· + start)

/-- Python `s[a:b]` for `a ≤ b`. -/
def pySlice (s : List Char) (a b : Nat) : List Char :=
  (s.drop a).take (b - a)

/-- Python `s.strip()`. -/
def pyStrip (s : List Char) : List Char :=
  ((s.dropWhile pyIsSpace).reverse.dropWhile pyIsSpace).reverse

/-- Python `s.split(sep)` for a one-character separator. -/
def pySplit (sep : Char) : List Char → List (List Char)
  | [] => [[]]
  | c :: rest =>
    if c = sep then [] :: pySplit sep rest
    else
      match pySplit sep rest with
      | [] => [[c]]
      | l :: ls => (c :: l) :: ls

/-- The part of `s` after the first `'\n'`, i.e. Python `s.split("\n", 1)[1]`;
`none` models the `IndexError` raised when `s` has no newline. -/
def afterFirstNewline : List Char → Option (List Char)
  | [] => none
  | c :: rest => if c = '\n' then some rest else afterFirstNewline rest

/-- Python `s.splitlines()` (ASCII boundaries, `"\r\n"` counted once). -/
def pySplitlines : List Char → List (List Char)
  | [] => []
  | '\r' :: '\n' :: rest => [] :: pySplitlines rest
  | c :: rest =>
    if isLineBreak c then [] :: pySplitlines rest
    else
      match pySplitlines rest with
      | [] => [[c]]
      | l :: ls => (c :: l) :: ls

/-- Tail of Python `sep.join`: `sep ++ p₁ ++ sep ++ p₂ ++ ⋯`. -/
def pyJoinRest (sep : List Char) : List (List Char) → List Char
  | [] => []
  | l :: ls => sep ++ l ++ pyJoinRest sep ls

/-- Python `sep.join(parts)`. -/
def pyJoin (sep : List Char) : List (List Char) → List Char
  | [] => []
  | l :: ls => l ++ pyJoinRest sep ls

/-- Python truthiness of an `Optional[str]`. -/
def pyTruthyOpt : Option (List Char) → Bool
  | none => false
  | some s => !s.isEmpty

/-- Python f-string interpolation of an `Optional[str]` value. -/
def optStr : Option (List Char) → List Char
  | none => "None".data
  | some s => s

/-! ### Schema catalog (`fetch_schema` and the cache consulted by
`generate_sql_query`) -/

/-- One column tuple as served by the Access API (name, type, size, …). -/
abbrev ColumnInfo := List (List Char)

/-- The `self.table_schemas` dictionary. -/
abbrev Schemas := List (List Char × List ColumnInfo)

/-- Dictionary lookup in `self.table_schemas`. -/
def schemaLookup : Schemas → List Char → Option (List ColumnInfo)
  | [], _ => none
  | (k, v) :: rest, t => if k = t then some v else schemaLookup rest t

/-- Model of `Pipeline.fetch_schema`: on a response containing `"columns"` the columns
are stored in `table_schemas` and `True` is returned; otherwise (error JSON or
exception) the cache is unchanged and `False` is returned.  The HTTP call is
the oracle `fetchCols`. -/
def fetch_schema (fetchCols : List Char → Option (List ColumnInfo))
    (table_schemas : Schemas) (table_name : List Char) : Bool × Schemas :=
  match fetchCols table_name with
  | some cols => (true, (table_name, cols) :: table_schemas)
  | none => (false, table_schemas)

/-- One iteration of the per-table loop at the top of
`Pipeline.generate_sql_query`: if `table not in self.table_schemas` then
`fetch_schema` is called (counted by the third component), and the columns are
then read from `self.table_schemas`.  Returns (columns or `None`, new cache,
number of upstream fetches issued). -/
def columns_request (fetchCols : List Char → Option (List ColumnInfo))
    (table_schemas : Schemas) (table : List Char) :
    Option (List ColumnInfo) × Schemas × Nat :=
  match schemaLookup table_schemas table with
  | some cols => (some cols, table_schemas, 0)
  | none =>
    let fs := fetch_schema fetchCols table_schemas table
    if fs.1 then (schemaLookup fs.2 table, fs.2, 1)
    else (none, fs.2, 1)

/-! ### Table selector (`select_relevant_tables`) -/

/-- Model of `Pipeline.select_relevant_tables`, given the completion response
`selected_tables_str` (the `chat_completion` oracle's answer, `none` on
failure): split on commas, strip, keep only exact members of
`available_tables`. -/
def select_relevant_tables (available_tables : List (List Char))
    (selected_tables_str : Option (List Char)) : List (List Char) :=
  match selected_tables_str with
  | none => []
  | some s =>
    if s = [] then []
    else
      let selected_tables := (pySplit ',' s).map pyStrip
      let valid_tables := selected_tables.filter (fun t => decide (t ∈ available_tables))
      if valid_tables = [] then [] else valid_tables

/-! ### SQL synthesizer response post-processing (`generate_sql_query`,
lines 199–221) -/

/-- The fence marker searched for by `response.find("```")`. -/
def fenceMarker : List Char := "```".data

/-- The marker searched for first, `response.find("```sql")`. -/
def fenceSqlMarker : List Char := "```sql".data

/-- The final newline normalisation,
`" ".join(line.strip() for line in sql_query.splitlines() if line.strip())`. -/
def normalize_query (sql_query : List Char) : List Char :=
  pyJoin " ".data (((pySplitlines sql_query).map pyStrip).filter (fun l => !l.isEmpty))

/-- The markdown-fence extraction and newline normalisation applied to a
truthy completion response inside `generate_sql_query` (lines 203–217).
`none` models the `IndexError` (caught by the enclosing `except`, which
returns `None`) raised by `split("\n", 1)[1]` when the fenced text has no
newline. -/
def clean_sql_response (response : List Char) : Option (List Char) :=
  let start? :=
    match pyFind response fenceSqlMarker 0 with
    | some i => some i
    | none => pyFind response fenceMarker 0
  let sql_query? :=
    match start? with
    | some s =>
      match pyFind response fenceMarker (s + 3) with
      | some e => (afterFirstNewline (pySlice response s e)).map pyStrip
      | none => (afterFirstNewline (response.drop s)).map pyStrip
    | none => some (pyStrip response)
  sql_query?.map normalize_query

/-- The response-dependent part of `Pipeline.generate_sql_query`: given the
completion oracle's answer (`none` on HTTP error or exception), produce the
cleaned query.  A falsy response (`None` or `""`) skips the cleaning block and
reaches `return sql_query` with `sql_query` unassigned; the resulting
`NameError` is caught by the `except`, which returns `None`. -/
def generate_sql_query_response (response : Option (List Char)) : Option (List Char) :=
  match response with
  | none => none
  | some r => if r = [] then none else clean_sql_response r

/-! ### Query executor (`fetch_query_result`) -/

/-- Outcome of the `GET /query` call: a JSON body with a `"result"` key, a
JSON body without one (its `"error"` value, defaulting to `'Unknown error'`),
or a raised exception (its message). -/
inductive QueryResp where
  | result (r : List Char)
  | error (e : List Char)
  | exn (e : List Char)
deriving DecidableEq

/-- Model of `Pipeline.fetch_query_result` given the data endpoint's response. -/
def fetch_query_result : QueryResp → List Char
  | .result r => "✅ Results:\n".data ++ r
  | .error e => "❌ Error:\n".data ++ e
  | .exn e => "❌ Request failed: ".data ++ e

/-! ### Retry controller (`_try_execute_query`) -/

/-- Marker tested by `result.startswith("❌")`. -/
def errMark : List Char := "❌".data

/-- Model of `error_message = result.split("\n")[1] if "\n" in result else
result[2:].strip()`. -/
def extractError (result : List Char) : List Char :=
  if '\n' ∈ result then ((pySplit '\n' result)[1]?).getD []
  else pyStrip (result.drop 2)

/-- The `error_context` string appended to the question on a retry:
`error_context = f"..." if previous_error else ""`.  Python string truthiness:
both `None` and `""` append nothing. -/
def errorContext (previous_error : Option (List Char)) : List Char :=
  if pyTruthyOpt previous_error then
    "\nPrevious attempt failed with error: ".data ++ optStr previous_error ++
      "\nPlease fix the query accordingly.".data
  else []

/-- The string `"Failed to generate SQL query"`. -/
def synthFailMsg : List Char := "Failed to generate SQL query".data

/-- The string `f"Failed after ... attempts. Last error: ..."`. -/
def failedAfterMsg (max_attempts : Nat) (error_message : List Char) : List Char :=
  "Failed after ".data ++ (toString max_attempts).data ++
    " attempts. Last error: ".data ++ error_message

/-- One recorded round of the retry loop (instrumentation for the proofs):
the attempt number, the question string passed to `generate_sql_query`, the
query it produced (`none` on synthesis failure), and the executor's result
string (`none` when no query was executed on that round). -/
structure AttemptRec where
  attempt : Nat
  question : List Char
  query : Option (List Char)
  result : Option (List Char)
deriving DecidableEq

/-- The collaborators consulted inside `_try_execute_query`: `genSql` is the
whole of `generate_sql_query` (schema fetches, completion call and response
cleaning) applied to the selected tables and the augmented question, and
`runQuery` is the data endpoint behind `fetch_query_result`.  Both may depend
on the attempt number, so that different rounds may observe different
responses. -/
structure RetryEnv where
  genSql : Nat → List (List Char) → List Char → Option (List Char)
  runQuery : Nat → List Char → QueryResp

/-- The recursion of `Pipeline._try_execute_query`, driven by the fuel
`remaining = max_attempts - attempt` so that the recursion is structural; the
source's guard `attempt < max_attempts` is exactly `remaining > 0` at every
reachable call, which the wrapper `try_execute_query` establishes.  Returns
the `(sql_query, result, error)` triple together with the list of rounds
performed. -/
def try_execute_query_go (env : RetryEnv) (user_question : List Char)
    (selected_tables : List (List Char)) (max_attempts : Nat) :
    Nat → Nat → Option (List Char) →
    (Option (List Char) × Option (List Char) × Option (List Char)) × List AttemptRec
  | remaining, attempt, previous_error =>
    let full_question := user_question ++ errorContext previous_error
    match env.genSql attempt selected_tables full_question with
    | none =>
      ((none, none, some synthFailMsg), [⟨attempt, full_question, none, none⟩])
    | some sql_query =>
      if sql_query = [] then
        ((none, none, some synthFailMsg),
          [⟨attempt, full_question, some sql_query, none⟩])
      else
        let result := fetch_query_result (env.runQuery attempt sql_query)
        let roundRec : AttemptRec := ⟨attempt, full_question, some sql_query, some result⟩
        if pyStartsWith errMark result then
          let error_message := extractError result
          match remaining with
          | remaining' + 1 =>
            let next := try_execute_query_go env user_question selected_tables
              max_attempts remaining' (attempt + 1) (some error_message)
            (next.1, roundRec :: next.2)
          | 0 =>
            ((some sql_query, some result,
              some (failedAfterMsg max_attempts error_message)), [roundRec])
        else
          ((some sql_query, some result, none), [roundRec])

/-- Model of `Pipeline._try_execute_query`. -/
def try_execute_query (env : RetryEnv) (user_question : List Char)
    (selected_tables : List (List Char)) (attempt max_attempts : Nat)
    (previous_error : Option (List Char)) :
    (Option (List Char) × Option (List Char) × Option (List Char)) × List AttemptRec :=
  try_execute_query_go env user_question selected_tables max_attempts
    (max_attempts - attempt) attempt previous_error

/-! ### Summarizer and `pipe` -/

/-- Model of `Pipeline.summarize_results` given the completion oracle's answer. -/
def summarize_results (summaryResp : Option (List Char)) : Option (List Char) :=
  match summaryResp with
  | none => none
  | some summary => if summary = [] then none else some (pyStrip summary)

/-- Model of `retry_info = f"\nNote: Query succeeded after retries. Original error:
{error}\n" if error else ""`. -/
def retryNote (error : Option (List Char)) : List Char :=
  if pyTruthyOpt error then
    "\nNote: Query succeeded after retries. Original error: ".data ++
      optStr error ++ "\n".data
  else []

/-- The oracles consulted during one call of `Pipeline.pipe`. -/
structure PipeEnv where
  classifierResp : Option (List Char)
  genSql : Nat → List (List Char) → List Char → Option (List Char)
  runQuery : Nat → List Char → QueryResp
  summaryResp : Option (List Char)

/-- The fixed early-return text of `pipe` when no table is selected. -/
def noTablesMsg : List Char :=
  "Failed to identify relevant tables for your question.".data

/-- Model of `Pipeline.pipe` (the `process()` coroutine).  Returns the final response
string, the list of retry rounds performed (empty iff `_try_execute_query`
was never entered, i.e. the synthesizer and executor were never called), and
whether `summarize_results` was invoked. -/
def pipe (env : PipeEnv) (available_tables : List (List Char))
    (user_message : List Char) : List Char × List AttemptRec × Bool :=
  let selected_tables := select_relevant_tables available_tables env.classifierResp
  if selected_tables = [] then (noTablesMsg, [], false)
  else
    let tri := try_execute_query ⟨env.genSql, env.runQuery⟩ user_message
      selected_tables 1 3 none
    let sql_query := tri.1.1
    let result := tri.1.2.1
    let error := tri.1.2.2
    if pyTruthyOpt error && !pyTruthyOpt result then
      ("Failed to execute query: ".data ++ optStr error, tri.2, false)
    else
      let summary := summarize_results env.summaryResp
      let summary_text :=
        if pyTruthyOpt summary then "\nSummary:\n".data ++ optStr summary else []
      let retry_info := retryNote error
      ("Selected tables: ".data ++ pyJoin ", ".data selected_tables ++ "\n".data ++
        retry_info ++ "\nGenerated SQL Query:\n".data ++ "```sql\n".data ++
        optStr sql_query ++ "\n```\n\n".data ++ optStr result ++ summary_text,
        tri.2, true)

/-! ### Concrete environments used by witnesses and counterexamples -/

/-- Environment in which synthesis always succeeds and every query fails. -/
def allFailEnv : RetryEnv where
  genSql := fun _ _ _ => some "SELECT 1".data
  runQuery := fun _ _ => QueryResp.error "boom".data

/-- Environment in which synthesis and execution always succeed. -/
def allOkEnv : RetryEnv where
  genSql := fun _ _ _ => some "SELECT 1".data
  runQuery := fun _ _ => QueryResp.result "ok".data

/-- Environment whose synthesizer always fails. -/
def synthNoneEnv : RetryEnv where
  genSql := fun _ _ _ => none
  runQuery := fun _ _ => QueryResp.result "ok".data

/-- Environment whose executor reports a two-line error on attempt 1 and
succeeds afterwards. -/
def multiLineErrEnv : RetryEnv where
  genSql := fun _ _ _ => some "SELECT 1".data
  runQuery := fun att _ =>
    if att = 1 then QueryResp.error "a\nb".data else QueryResp.result "ok".data

/-- Environment whose executor reports a single-line error on attempt 1 and
succeeds afterwards. -/
def singleLineErrEnv : RetryEnv where
  genSql := fun _ _ _ => some "SELECT 1".data
  runQuery := fun att _ =>
    if att = 1 then QueryResp.error "boom".data else QueryResp.result "ok".data

/-- Pipe environment whose classifier yields nothing. -/
def emptySelectPipeEnv : PipeEnv where
  classifierResp := none
  genSql := fun _ _ _ => some "SELECT 1".data
  runQuery := fun _ _ => QueryResp.result "ok".data
  summaryResp := none

/-- Pipe environment that selects one table and then fails synthesis. -/
def synthFailPipeEnv : PipeEnv where
  classifierResp := some "Customers".data
  genSql := fun _ _ _ => none
  runQuery := fun _ _ => QueryResp.result "ok".data
  summaryResp := none

/-- Pipe environment that selects one table and fails every execution. -/
def allFailPipeEnv : PipeEnv where
  classifierResp := some "T".data
  genSql := fun _ _ _ => some "SELECT 1".data
  runQuery := fun _ _ => QueryResp.error "boom".data
  summaryResp := some "summary".data

/-! ### Retry-controller lemmas -/

/-- Unfolding of the retry recursion when synthesis returns `None`. -/
theorem go_eq_synth_none {env : RetryEnv} {uq : List Char} {st : List (List Char)}
    {ma rem att : Nat} {prev : Option (List Char)}
    (hg : env.genSql att st (uq ++ errorContext prev) = none) :
    try_execute_query_go env uq st ma rem att prev =
      ((none, none, some synthFailMsg),
        [⟨att, uq ++ errorContext prev, none, none⟩]) := by
  rw [try_execute_query_go]
  simp [hg]

/-- Unfolding of the retry recursion when synthesis returns `""`. -/
theorem go_eq_synth_empty {env : RetryEnv} {uq : List Char} {st : List (List Char)}
    {ma rem att : Nat} {prev : Option (List Char)}
    (hg : env.genSql att st (uq ++ errorContext prev) = some []) :
    try_execute_query_go env uq st ma rem att prev =
      ((none, none, some synthFailMsg),
        [⟨att, uq ++ errorContext prev, some [], none⟩]) := by
  rw [try_execute_query_go]
  simp [hg]

/-- Unfolding of the retry recursion when the executor succeeds. -/
theorem go_eq_success {env : RetryEnv} {uq : List Char} {st : List (List Char)}
    {ma rem att : Nat} {prev : Option (List Char)} {q : List Char}
    (hg : env.genSql att st (uq ++ errorContext prev) = some q) (hq : q ≠ [])
    (he : pyStartsWith errMark (fetch_query_result (env.runQuery att q)) = false) :
    try_execute_query_go env uq st ma rem att prev =
      ((some q, some (fetch_query_result (env.runQuery att q)), none),
        [⟨att, uq ++ errorContext prev, some q,
          some (fetch_query_result (env.runQuery att q))⟩]) := by
  rw [try_execute_query_go]
  simp [hg, hq, he]

/-- Unfolding of the retry recursion when the executor fails with no round
remaining (`attempt == max_attempts` in the source). -/
theorem go_eq_exhaust {env : RetryEnv} {uq : List Char} {st : List (List Char)}
    {ma att : Nat} {prev : Option (List Char)} {q : List Char}
    (hg : env.genSql att st (uq ++ errorContext prev) = some q) (hq : q ≠ [])
    (he : pyStartsWith errMark (fetch_query_result (env.runQuery att q)) = true) :
    try_execute_query_go env uq st ma 0 att prev =
      ((some q, some (fetch_query_result (env.runQuery att q)),
        some (failedAfterMsg ma (extractError (fetch_query_result (env.runQuery att q))))),
        [⟨att, uq ++ errorContext prev, some q,
          some (fetch_query_result (env.runQuery att q))⟩]) := by
  rw [try_execute_query_go]
  simp [hg, hq, he]

/-- Unfolding of the retry recursion when the executor fails with rounds
remaining (`attempt < max_attempts` in the source): the error text is fed to
the next round. -/
theorem go_eq_retry {env : RetryEnv} {uq : List Char} {st : List (List Char)}
    {ma rem att : Nat} {prev : Option (List Char)} {q : List Char}
    (hg : env.genSql att st (uq ++ errorContext prev) = some q) (hq : q ≠ [])
    (he : pyStartsWith errMark (fetch_query_result (env.runQuery att q)) = true) :
    try_execute_query_go env uq st ma (rem + 1) att prev =
      ((try_execute_query_go env uq st ma rem (att + 1)
          (some (extractError (fetch_query_result (env.runQuery att q))))).1,
        ⟨att, uq ++ errorContext prev, some q,
          some (fetch_query_result (env.runQuery att q))⟩ ::
        (try_execute_query_go env uq st ma rem (att + 1)
          (some (extractError (fetch_query_result (env.runQuery att q))))).2) := by
  rw [try_execute_query_go]
  simp [hg, hq, he]


/-- Every entry into the retry recursion records at least one round, whose
attempt number and synthesis question are the entry's. -/
theorem go_trace_cons (env : RetryEnv) (uq : List Char) (st : List (List Char))
    (ma rem att : Nat) (prev : Option (List Char)) :
    ∃ rec0 rest,
      (try_execute_query_go env uq st ma rem att prev).2 = rec0 :: rest ∧
        rec0.attempt = att ∧ rec0.question = uq ++ errorContext prev := by
  rw [try_execute_query_go]
  cases hg : env.genSql att st (uq ++ errorContext prev) with
  | none => exact ⟨_, _, rfl, rfl, rfl⟩
  | some q =>
    by_cases hq : q = []
    · simp only [hq, if_pos rfl]
      exact ⟨_, _, rfl, rfl, rfl⟩
    · simp only [if_neg hq]
      by_cases he : pyStartsWith errMark (fetch_query_result (env.runQuery att q)) = true
      · simp only [if_pos he]
        cases rem with
        | zero => exact ⟨_, _, rfl, rfl, rfl⟩
        | succ rem' => exact ⟨_, _, rfl, rfl, rfl⟩
      · simp only [if_neg he]
        exact ⟨_, _, rfl, rfl, rfl⟩

/-- The retry recursion performs at most `remaining + 1` rounds. -/
theorem go_trace_len (env : RetryEnv) (uq : List Char) (st : List (List Char))
    (ma : Nat) : ∀ (rem att : Nat) (prev : Option (List Char)),
    (try_execute_query_go env uq st ma rem att prev).2.length ≤ rem + 1 := by
  intro rem
  induction rem with
  | zero =>
    intro att prev
    rw [try_execute_query_go]
    cases hg : env.genSql att st (uq ++ errorContext prev) with
    | none => simp
    | some q =>
      by_cases hq : q = []
      · simp [hq]
      · simp only [if_neg hq]
        by_cases he : pyStartsWith errMark (fetch_query_result (env.runQuery att q)) = true
        · simp [if_pos he]
        · simp [if_neg he]
  | succ rem' ih =>
    intro att prev
    rw [try_execute_query_go]
    cases hg : env.genSql att st (uq ++ errorContext prev) with
    | none => simp
    | some q =>
      by_cases hq : q = []
      · simp [hq]
      · simp only [if_neg hq]
        by_cases he : pyStartsWith errMark (fetch_query_result (env.runQuery att q)) = true
        · simp only [if_pos he, List.length_cons]
          have := ih (att + 1)
            (some (extractError (fetch_query_result (env.runQuery att q))))
          omega
        · simp [if_neg he]

/-- Terminal-shape trichotomy for the retry recursion: it ends in synthesis
failure, in executor success with a `None` error, or in exhaustion after
exactly `remaining + 1` rounds with the last round numbered
`attempt + remaining`. -/
theorem go_out_cases (env : RetryEnv) (uq : List Char) (st : List (List Char))
    (ma : Nat) : ∀ (rem att : Nat) (prev : Option (List Char)),
    (try_execute_query_go env uq st ma rem att prev).1 = (none, none, some synthFailMsg) ∨
    (∃ q r, (try_execute_query_go env uq st ma rem att prev).1 = (some q, some r, none) ∧
      pyStartsWith errMark r = false) ∨
    (∃ q r e, (try_execute_query_go env uq st ma rem att prev).1 =
        (some q, some r, some (failedAfterMsg ma e)) ∧
      pyStartsWith errMark r = true ∧
      (try_execute_query_go env uq st ma rem att prev).2.length = rem + 1 ∧
      ((try_execute_query_go env uq st ma rem att prev).2.getLast?).map AttemptRec.attempt =
        some (att + rem)) := by
  intro rem
  induction rem with
  | zero =>
    intro att prev
    rw [try_execute_query_go]
    cases hg : env.genSql att st (uq ++ errorContext prev) with
    | none => exact Or.inl rfl
    | some q =>
      by_cases hq : q = []
      · simp only [hq, if_pos rfl]
        exact Or.inl rfl
      · simp only [if_neg hq]
        by_cases he : pyStartsWith errMark (fetch_query_result (env.runQuery att q)) = true
        · simp only [if_pos he]
          exact Or.inr (Or.inr ⟨q, _, _, rfl, he, rfl, rfl⟩)
        · simp only [if_neg he]
          exact Or.inr (Or.inl ⟨q, _, rfl, Bool.not_eq_true _ ▸ he⟩)
  | succ rem' ih =>
    intro att prev
    rw [try_execute_query_go]
    cases hg : env.genSql att st (uq ++ errorContext prev) with
    | none => exact Or.inl rfl
    | some q =>
      by_cases hq : q = []
      · simp only [hq, if_pos rfl]
        exact Or.inl rfl
      · simp only [if_neg hq]
        by_cases he : pyStartsWith errMark (fetch_query_result (env.runQuery att q)) = true
        · simp only [if_pos he]
          rcases ih (att + 1)
              (some (extractError (fetch_query_result (env.runQuery att q)))) with
            h | ⟨q', r', h, hr⟩ | ⟨q', r', e', h, hr, hlen, hlast⟩
          · exact Or.inl h
          · exact Or.inr (Or.inl ⟨q', r', h, hr⟩)
          · refine Or.inr (Or.inr ⟨q', r', e', h, hr, ?_, ?_⟩)
            · simp only [List.length_cons, hlen]
            · rcases go_trace_cons env uq st ma rem' (att + 1)
                (some (extractError (fetch_query_result (env.runQuery att q)))) with
                ⟨rec0, rest, hcons, _, _⟩
              simp only [hcons] at hlast ⊢
              simp only [List.getLast?_cons_cons]
              rw [hlast]
              congr 1
              omega
        · simp only [if_neg he]
          exact Or.inr (Or.inl ⟨q, _, rfl, Bool.not_eq_true _ ▸ he⟩)


/-- The synthesis-failure message can never coincide with an exhaustion
message (they differ at index 7). -/
theorem failedAfterMsg_ne_synthFailMsg (e : List Char) :
    failedAfterMsg 3 e ≠ synthFailMsg := by
  intro h
  have h1 : (failedAfterMsg 3 e)[7]? = some 'a' := rfl
  rw [h] at h1
  exact absurd h1 (by decide)

/-- A round whose recorded query is falsy (`None` or `""`) is the last round
of the run, executes nothing, and makes the whole call return the
synthesis-failure triple. -/
theorem go_synth_fail_last (env : RetryEnv) (uq : List Char) (st : List (List Char))
    (ma : Nat) : ∀ (rem att : Nat) (prev : Option (List Char)) (i : Nat) (recd : AttemptRec),
    ((try_execute_query_go env uq st ma rem att prev).2)[i]? = some recd →
    (recd.query = none ∨ recd.query = some []) →
    i + 1 = (try_execute_query_go env uq st ma rem att prev).2.length ∧
      recd.result = none ∧
      (try_execute_query_go env uq st ma rem att prev).1 = (none, none, some synthFailMsg) := by
  intro rem
  induction rem with
  | zero =>
    intro att prev i recd hget hquery
    cases hg : env.genSql att st (uq ++ errorContext prev) with
    | none =>
      rw [go_eq_synth_none hg] at hget ⊢
      cases i with
      | zero =>
        simp only [List.getElem?_cons_zero, Option.some.injEq] at hget
        subst hget
        refine ⟨rfl, rfl, rfl⟩
      | succ j => simp at hget
    | some q =>
      by_cases hq : q = []
      · subst hq
        rw [go_eq_synth_empty hg] at hget ⊢
        cases i with
        | zero =>
          simp only [List.getElem?_cons_zero, Option.some.injEq] at hget
          subst hget
          refine ⟨rfl, rfl, rfl⟩
        | succ j => simp at hget
      · by_cases he : pyStartsWith errMark (fetch_query_result (env.runQuery att q)) = true
        · rw [go_eq_exhaust hg hq he] at hget ⊢
          cases i with
          | zero =>
            simp only [List.getElem?_cons_zero, Option.some.injEq] at hget
            subst hget
            rcases hquery with h | h
            · exact absurd h (by simp)
            · exact absurd (Option.some.inj h) hq
          | succ j => simp at hget
        · rw [go_eq_success hg hq (Bool.not_eq_true _ ▸ he)] at hget ⊢
          cases i with
          | zero =>
            simp only [List.getElem?_cons_zero, Option.some.injEq] at hget
            subst hget
            rcases hquery with h | h
            · exact absurd h (by simp)
            · exact absurd (Option.some.inj h) hq
          | succ j => simp at hget
  | succ rem' ih =>
    intro att prev i recd hget hquery
    cases hg : env.genSql att st (uq ++ errorContext prev) with
    | none =>
      rw [go_eq_synth_none hg] at hget ⊢
      cases i with
      | zero =>
        simp only [List.getElem?_cons_zero, Option.some.injEq] at hget
        subst hget
        refine ⟨rfl, rfl, rfl⟩
      | succ j => simp at hget
    | some q =>
      by_cases hq : q = []
      · subst hq
        rw [go_eq_synth_empty hg] at hget ⊢
        cases i with
        | zero =>
          simp only [List.getElem?_cons_zero, Option.some.injEq] at hget
          subst hget
          refine ⟨rfl, rfl, rfl⟩
        | succ j => simp at hget
      · by_cases he : pyStartsWith errMark (fetch_query_result (env.runQuery att q)) = true
        · rw [go_eq_retry hg hq he] at hget ⊢
          cases i with
          | zero =>
            simp only [List.getElem?_cons_zero, Option.some.injEq] at hget
            subst hget
            rcases hquery with h | h
            · exact absurd h (by simp)
            · exact absurd (Option.some.inj h) hq
          | succ j =>
            simp only [List.getElem?_cons_succ] at hget
            rcases ih (att + 1)
                (some (extractError (fetch_query_result (env.runQuery att q)))) j recd
                hget hquery with ⟨hlen, hres, hout⟩
            refine ⟨?_, hres, hout⟩
            simp only [List.length_cons]
            omega
        · rw [go_eq_success hg hq (Bool.not_eq_true _ ▸ he)] at hget ⊢
          cases i with
          | zero =>
            simp only [List.getElem?_cons_zero, Option.some.injEq] at hget
            subst hget
            rcases hquery with h | h
            · exact absurd h (by simp)
            · exact absurd (Option.some.inj h) hq
          | succ j => simp at hget


/-- Splitting a list without the separator yields that single part. -/
theorem pySplit_of_not_mem {sep : Char} {l : List Char} (h : sep ∉ l) :
    pySplit sep l = [l] := by
  induction l with
  | nil => rfl
  | cons c rest ih =>
    have hc : ¬c = sep := fun hc => h (hc ▸ List.mem_cons_self c rest)
    have hrest : sep ∉ rest := fun hr => h (List.mem_cons_of_mem c hr)
    rw [pySplit, if_neg hc, ih hrest]

/-- Splitting at the first separator occurrence. -/
theorem pySplit_append_cons {sep : Char} {a : List Char} (b : List Char)
    (h : sep ∉ a) : pySplit sep (a ++ sep :: b) = a :: pySplit sep b := by
  induction a with
  | nil => simp [pySplit]
  | cons c a' ih =>
    have hc : ¬c = sep := fun hc => h (hc ▸ List.mem_cons_self c a')
    have ha : sep ∉ a' := fun hr => h (List.mem_cons_of_mem c hr)
    rw [List.cons_append, pySplit, if_neg hc, ih ha]

/-- For a single-line executor error `e`, the retry loop's extracted error
message is exactly `e`. -/
theorem extractError_error_of_single_line {e : List Char} (h : '\n' ∉ e) :
    extractError (fetch_query_result (QueryResp.error e)) = e := by
  have hshape : fetch_query_result (QueryResp.error e) =
      "❌ Error:".data ++ '\n' :: e := rfl
  rw [extractError, hshape]
  rw [if_pos (by simp)]
  rw [pySplit_append_cons e (by decide), pySplit_of_not_mem h]
  rfl

/-! ### Claims on the retry controller -/

/-- C1: for every pipeline run (any synthesis/executor behaviour), the retry
controller entered at attempt 1 with `max_attempts = 3` performs at most 3
synthesize-then-execute rounds; whenever the terminal executor outcome is a
failure (`❌`-prefixed result), exactly 3 rounds were performed; and the
exhaustion error `"Failed after 3 attempts. …"` is returned only when the
last round performed is round 3. -/
theorem C1_attempts_bounded (env : RetryEnv) (uq : List Char) (st : List (List Char)) :
    (try_execute_query env uq st 1 3 none).2.length ≤ 3 ∧
    ((∃ r, (try_execute_query env uq st 1 3 none).1.2.1 = some r ∧
        pyStartsWith errMark r = true) →
      (try_execute_query env uq st 1 3 none).2.length = 3 ∧
      ((try_execute_query env uq st 1 3 none).2.getLast?).map AttemptRec.attempt = some 3) ∧
    ((∃ e, (try_execute_query env uq st 1 3 none).1.2.2 = some (failedAfterMsg 3 e)) →
      (try_execute_query env uq st 1 3 none).2.length = 3 ∧
      ((try_execute_query env uq st 1 3 none).2.getLast?).map AttemptRec.attempt = some 3) := by
  refine ⟨go_trace_len env uq st 3 2 1 none, ?_, ?_⟩
  · rintro ⟨r, hr, hmark⟩
    rcases go_out_cases env uq st 3 2 1 none with h | ⟨q', r', h, hfalse⟩ |
      ⟨q', r', e', h, _, hlen, hlast⟩
    · rw [show (try_execute_query env uq st 1 3 none).1 =
        (try_execute_query_go env uq st 3 2 1 none).1 from rfl, h] at hr
      simp at hr
    · rw [show (try_execute_query env uq st 1 3 none).1 =
        (try_execute_query_go env uq st 3 2 1 none).1 from rfl, h] at hr
      simp only [Option.some.injEq] at hr
      rw [hr] at hfalse
      rw [hmark] at hfalse
      simp at hfalse
    · exact ⟨hlen, hlast⟩
  · rintro ⟨e, he⟩
    rcases go_out_cases env uq st 3 2 1 none with h | ⟨q', r', h, hfalse⟩ |
      ⟨q', r', e', h, _, hlen, hlast⟩
    · rw [show (try_execute_query env uq st 1 3 none).1 =
        (try_execute_query_go env uq st 3 2 1 none).1 from rfl, h] at he
      simp only [Option.some.injEq] at he
      exact absurd he.symm (failedAfterMsg_ne_synthFailMsg e)
    · rw [show (try_execute_query env uq st 1 3 none).1 =
        (try_execute_query_go env uq st 3 2 1 none).1 from rfl, h] at he
      simp at he
    · exact ⟨hlen, hlast⟩

/-- C1 witness: in the all-failures environment the hypotheses hold and the
run makes exactly 3 attempts, the last numbered 3. -/
theorem C1_attempts_bounded_witness :
    (∃ r, (try_execute_query allFailEnv "q".data [] 1 3 none).1.2.1 = some r ∧
        pyStartsWith errMark r = true) ∧
    (∃ e, (try_execute_query allFailEnv "q".data [] 1 3 none).1.2.2 =
        some (failedAfterMsg 3 e)) ∧
    (try_execute_query allFailEnv "q".data [] 1 3 none).2.length ≤ 3 ∧
    (try_execute_query allFailEnv "q".data [] 1 3 none).2.length = 3 ∧
    ((try_execute_query allFailEnv "q".data [] 1 3 none).2.getLast?).map
      AttemptRec.attempt = some 3 := by
  have h := C1_attempts_bounded allFailEnv "q".data []
  have hfail : (∃ r, (try_execute_query allFailEnv "q".data [] 1 3 none).1.2.1 = some r ∧
      pyStartsWith errMark r = true) :=
    ⟨fetch_query_result (QueryResp.error "boom".data), by decide, by decide⟩
  have hexh : (∃ e, (try_execute_query allFailEnv "q".data [] 1 3 none).1.2.2 =
      some (failedAfterMsg 3 e)) := ⟨"boom".data, by decide⟩
  exact ⟨hfail, hexh, h.1, (h.2.1 hfail).1, (h.2.1 hfail).2⟩

end TextToSql
namespace TextToSql

/-- The first part of a split is the run up to the first separator. -/
theorem pySplit_head (sep : Char) :
    ∀ l : List Char, ∃ tl, pySplit sep l =
      l.takeWhile (fun c => !decide (c = sep)) :: tl := by
  intro l
  induction l with
  | nil => exact ⟨[], rfl⟩
  | cons c rest ih =>
    by_cases hc : c = sep
    · refine ⟨pySplit sep rest, ?_⟩
      rw [pySplit, if_pos hc, List.takeWhile_cons_of_neg (by simp [hc])]
    · rcases ih with ⟨tl, htl⟩
      refine ⟨tl, ?_⟩
      rw [pySplit, if_neg hc, htl, List.takeWhile_cons_of_pos (by simp [hc])]

/-- Taking up to an absent character takes everything. -/
theorem takeWhile_ne_eq_self {e : List Char} {x : Char} (h : x ∉ e) :
    e.takeWhile (fun c => !decide (c = x)) = e := by
  induction e with
  | nil => rfl
  | cons c rest ih =>
    have hc : ¬c = x := fun hcx => h (hcx ▸ List.mem_cons_self c rest)
    rw [List.takeWhile_cons_of_pos (by simp [hc]),
      ih (fun hm => h (List.mem_cons_of_mem c hm))]

/-- For an executor error `e`, the retry loop's extracted error message is the
first line of `e`. -/
theorem extractError_error (e : List Char) :
    extractError (fetch_query_result (QueryResp.error e)) =
      e.takeWhile (fun c => !decide (c = '\n')) := by
  have hshape : fetch_query_result (QueryResp.error e) =
      "❌ Error:".data ++ '\n' :: e := rfl
  rw [extractError, hshape, if_pos (by simp), pySplit_append_cons e (by decide)]
  rcases pySplit_head '\n' e with ⟨tl, htl⟩
  rw [htl]
  simp

/-- C3 (amended): when the executor reports failure with error text `e`
on attempt `att < 3`, the controller performs another round whose synthesis
question is the user question with the first line of `e` appended as context
(the exact text `e` whenever `e` contains no newline, and — per the code's
truthiness guard — no context at all when that first line is empty); and any
full run calls the executor at most 3 times. -/
theorem C3_error_feedback (env : RetryEnv) (uq : List Char) (st : List (List Char))
    (att : Nat) (prev : Option (List Char)) (q e : List Char)
    (hatt : att < 3)
    (hg : env.genSql att st (uq ++ errorContext prev) = some q) (hq : q ≠ [])
    (hrun : env.runQuery att q = QueryResp.error e) :
    (((try_execute_query env uq st att 3 prev).2)[1]?).map AttemptRec.question =
      some (uq ++ errorContext
        (some (e.takeWhile (fun c => !decide (c = '\n'))))) ∧
    ('\n' ∉ e →
      (((try_execute_query env uq st att 3 prev).2)[1]?).map AttemptRec.question =
        some (uq ++ errorContext (some e))) ∧
    (try_execute_query env uq st 1 3 none).2.length ≤ 3 ∧
    ((try_execute_query env uq st 1 3 none).2.filter
      (fun r => r.result.isSome)).length ≤ 3 := by
  have hfirst : (((try_execute_query env uq st att 3 prev).2)[1]?).map
      AttemptRec.question =
      some (uq ++ errorContext
        (some (e.takeWhile (fun c => !decide (c = '\n'))))) := by
    obtain ⟨k, hk⟩ : ∃ k, 3 - att = k + 1 := ⟨3 - att - 1, by omega⟩
    have hmark : pyStartsWith errMark (fetch_query_result (env.runQuery att q)) = true := by
      rw [hrun]; rfl
    have hextract : extractError (fetch_query_result (env.runQuery att q)) =
        e.takeWhile (fun c => !decide (c = '\n')) := by
      rw [hrun]; exact extractError_error e
    have hstep : try_execute_query env uq st att 3 prev =
        try_execute_query_go env uq st 3 (k + 1) att prev := by
      rw [try_execute_query, hk]
    rw [hstep, go_eq_retry hg hq hmark, hextract]
    rcases go_trace_cons env uq st 3 k (att + 1)
        (some (e.takeWhile (fun c => !decide (c = '\n')))) with
      ⟨rec0, rest, hcons, _, hquest⟩
    simp only [hcons, List.getElem?_cons_succ, List.getElem?_cons_zero]
    simp [hquest]
  refine ⟨hfirst, ?_, go_trace_len env uq st 3 2 1 none,
    le_trans (List.length_filter_le _ _) (go_trace_len env uq st 3 2 1 none)⟩
  intro hnl
  rw [takeWhile_ne_eq_self hnl] at hfirst
  exact hfirst

/-- C3 witness: at the two-line error `"a\nb"` the second round's question
carries exactly the first line `"a"`, and at the single-line error `"boom"`
it carries exactly that text. -/
theorem C3_error_feedback_witness :
    (1 < 3 ∧
      multiLineErrEnv.genSql 1 [] ("q".data ++ errorContext none) =
        some "SELECT 1".data ∧
      "SELECT 1".data ≠ ([] : List Char) ∧
      multiLineErrEnv.runQuery 1 "SELECT 1".data = QueryResp.error "a\nb".data) ∧
    (((try_execute_query multiLineErrEnv "q".data [] 1 3 none).2)[1]?).map
        AttemptRec.question =
      some ("q".data ++ errorContext
        (some ("a\nb".data.takeWhile (fun c => !decide (c = '\n'))))) ∧
    ('\n' ∉ "boom".data) ∧
    (((try_execute_query singleLineErrEnv "q".data [] 1 3 none).2)[1]?).map
        AttemptRec.question = some ("q".data ++ errorContext (some "boom".data)) := by
  refine ⟨⟨by decide, by decide, by decide, by decide⟩, ?_, by decide, ?_⟩
  · exact (C3_error_feedback multiLineErrEnv "q".data [] 1 none "SELECT 1".data
      "a\nb".data (by decide) (by decide) (by decide) (by decide)).1
  · exact (C3_error_feedback singleLineErrEnv "q".data [] 1 none "SELECT 1".data
      "boom".data (by decide) (by decide) (by decide) (by decide)).2.1 (by decide)

/-- C3 counterexample: with the two-line executor error `"a\nb"` on attempt 1,
the second synthesis question does not carry that exact error text — only its
first line `"a"` is appended. -/
theorem C3_counterexample :
    multiLineErrEnv.runQuery 1 "SELECT 1".data = QueryResp.error "a\nb".data ∧
    (((try_execute_query multiLineErrEnv "q".data [] 1 3 none).2)[1]?).map
        AttemptRec.question = some ("q".data ++ errorContext (some "a".data)) ∧
    (((try_execute_query multiLineErrEnv "q".data [] 1 3 none).2)[1]?).map
        AttemptRec.question ≠ some ("q".data ++ errorContext (some "a\nb".data)) := by
  refine ⟨by decide, by decide, by decide⟩

/-- C4: any round of a run on which synthesis fails (the recorded query is
`None` or `""`) is the final round: nothing is executed on it, no further
rounds follow, and the whole call returns the synthesis-failure triple
`(None, None, "Failed to generate SQL query")`, regardless of how many
attempts remain. -/
theorem C4_synthesis_failure_short_circuits (env : RetryEnv) (uq : List Char)
    (st : List (List Char)) (i : Nat) (recd : AttemptRec)
    (hget : ((try_execute_query env uq st 1 3 none).2)[i]? = some recd)
    (hquery : recd.query = none ∨ recd.query = some []) :
    i + 1 = (try_execute_query env uq st 1 3 none).2.length ∧
      recd.result = none ∧
      (try_execute_query env uq st 1 3 none).1 = (none, none, some synthFailMsg) :=
  go_synth_fail_last env uq st 3 2 1 none i recd hget hquery

/-- C4 witness: in the synthesis-failure environment the single round's
record is round 1 with no query and no result, and the run returns the
synthesis-failure triple. -/
theorem C4_synthesis_failure_witness :
    (((try_execute_query synthNoneEnv "q".data [] 1 3 none).2)[0]? =
        some ⟨1, "q".data, none, none⟩) ∧
    (0 + 1 = (try_execute_query synthNoneEnv "q".data [] 1 3 none).2.length ∧
      (⟨1, "q".data, none, none⟩ : AttemptRec).result = none ∧
      (try_execute_query synthNoneEnv "q".data [] 1 3 none).1 =
        (none, none, some synthFailMsg)) := by
  refine ⟨by decide, ?_⟩
  exact C4_synthesis_failure_short_circuits synthNoneEnv "q".data [] 0
    ⟨1, "q".data, none, none⟩ (by decide) (Or.inl (by decide))

/-- C10 (implicit): whenever the terminal executor outcome is success (the
returned result does not start with `❌`), the error component of the triple
returned by `_try_execute_query` is `None` — even if earlier attempts failed —
so `pipe`'s retry note is the empty string on every successful run. -/
theorem C10_success_error_none (env : RetryEnv) (uq : List Char)
    (st : List (List Char)) (r : List Char)
    (hres : (try_execute_query env uq st 1 3 none).1.2.1 = some r)
    (hok : pyStartsWith errMark r = false) :
    (try_execute_query env uq st 1 3 none).1.2.2 = none ∧
      retryNote (try_execute_query env uq st 1 3 none).1.2.2 = [] := by
  rcases go_out_cases env uq st 3 2 1 none with h | ⟨q', r', h, hfalse⟩ |
    ⟨q', r', e', h, htrue, _, _⟩
  · rw [show (try_execute_query env uq st 1 3 none).1 =
      (try_execute_query_go env uq st 3 2 1 none).1 from rfl, h] at hres
    simp at hres
  · have herr : (try_execute_query env uq st 1 3 none).1.2.2 = none := by
      rw [show (try_execute_query env uq st 1 3 none).1 =
        (try_execute_query_go env uq st 3 2 1 none).1 from rfl, h]
    exact ⟨herr, by rw [herr]; rfl⟩
  · rw [show (try_execute_query env uq st 1 3 none).1 =
      (try_execute_query_go env uq st 3 2 1 none).1 from rfl, h] at hres
    simp only [Option.some.injEq] at hres
    rw [hres, hok] at htrue
    simp at htrue

/-- C10 witness: a run that fails on attempt 1 and succeeds on attempt 2
returns `None` as its error and an empty retry note. -/
theorem C10_success_error_none_witness :
    ((try_execute_query singleLineErrEnv "w".data [] 1 3 none).1.2.1 =
        some (fetch_query_result (QueryResp.result "ok".data))) ∧
    pyStartsWith errMark (fetch_query_result (QueryResp.result "ok".data)) = false ∧
    ((try_execute_query singleLineErrEnv "w".data [] 1 3 none).1.2.2 = none ∧
      retryNote (try_execute_query singleLineErrEnv "w".data [] 1 3 none).1.2.2 = []) := by
  refine ⟨by decide, by decide, ?_⟩
  exact C10_success_error_none singleLineErrEnv "w".data []
    (fetch_query_result (QueryResp.result "ok".data)) (by decide) (by decide)

/-! ### Claims on the selector, schema cache and synthesizer contract -/

/-- C2: every table name returned by `select_relevant_tables` is an exact
(case-sensitive) member of the available-table list; any completion name that
is not an exact member is filtered out. -/
theorem C2_selected_tables_valid (available_tables : List (List Char))
    (resp : Option (List Char)) (t : List Char)
    (h : t ∈ select_relevant_tables available_tables resp) :
    t ∈ available_tables := by
  rcases resp with _ | s
  · simp [select_relevant_tables] at h
  · rw [select_relevant_tables] at h
    by_cases hs : s = []
    · simp [hs] at h
    · rw [if_neg hs] at h
      set valid := ((pySplit ',' s).map pyStrip).filter
        (fun t => decide (t ∈ available_tables)) with hv
      by_cases hvn : valid = []
      · rw [if_pos hvn] at h
        simp at h
      · rw [if_neg hvn] at h
        have := List.of_mem_filter h
        exact of_decide_eq_true this

/-- C2 witness: on a concrete completion naming one real and one hallucinated
table, the returned (member) table is in the available list. -/
theorem C2_selected_tables_valid_witness :
    "Customers".data ∈
      select_relevant_tables ["Customers".data, "Orders".data]
        (some "Customers , Bogus".data) ∧
    "Customers".data ∈ ["Customers".data, "Orders".data] := by
  refine ⟨by decide, ?_⟩
  exact C2_selected_tables_valid ["Customers".data, "Orders".data]
    (some "Customers , Bogus".data) "Customers".data (by decide)

/-- C9: when the completion response is missing (`None`) or empty, the
response-processing part of `generate_sql_query` yields `None` (the
`NameError` on `return sql_query` is caught by the function's own handler),
not an exception and not the empty string. -/
theorem C9_empty_completion_yields_none :
    generate_sql_query_response none = none ∧
    generate_sql_query_response (some []) = none := ⟨rfl, rfl⟩

/-- C7 (amended): once a request for a table's columns succeeds, a second
request with no intervening refresh issues no upstream fetch, is served from
the `table_schemas` cache, and yields the identical column sequence (so the
two requests together issue at most one fetch).  A failed fetch, by contrast,
is not cached (see the counterexample). -/
theorem C7_columns_cached (fetchCols : List Char → Option (List ColumnInfo))
    (table_schemas : Schemas) (table : List Char) (cols : List ColumnInfo)
    (cache' : Schemas) (n : Nat)
    (h : columns_request fetchCols table_schemas table = (some cols, cache', n)) :
    columns_request fetchCols cache' table = (some cols, cache', 0) ∧ n ≤ 1 := by
  rw [columns_request] at h
  cases hl : schemaLookup table_schemas table with
  | some cols0 =>
    rw [hl] at h
    simp only [Prod.mk.injEq, Option.some.injEq] at h
    obtain ⟨h1, h2, h3⟩ := h
    subst h1; subst h2; subst h3
    rw [columns_request, hl]
    exact ⟨rfl, by omega⟩
  | none =>
    rw [hl] at h
    cases hf : fetchCols table with
    | some c =>
      simp only [fetch_schema, hf, if_pos] at h
      have hlook : schemaLookup ((table, c) :: table_schemas) table = some c := by
        rw [schemaLookup, if_pos rfl]
      rw [hlook] at h
      simp only [Prod.mk.injEq, Option.some.injEq] at h
      obtain ⟨h1, h2, h3⟩ := h
      subst h1; subst h3
      rw [columns_request, ← h2, hlook]
      exact ⟨rfl, by omega⟩
    | none =>
      simp only [fetch_schema, hf] at h
      simp at h

/-- C7 witness: starting from an empty cache with a working upstream, the
first request fetches once and the second is a pure cache hit with the same
columns. -/
theorem C7_columns_cached_witness :
    columns_request (fun _ => some [["id".data]]) [] "T".data =
      (some [["id".data]], [("T".data, [["id".data]])], 1) ∧
    (columns_request (fun _ => some [["id".data]])
        [("T".data, [["id".data]])] "T".data =
      (some [["id".data]], [("T".data, [["id".data]])], 0) ∧ 1 ≤ 1) := by
  refine ⟨by decide, ?_⟩
  exact C7_columns_cached (fun _ => some [["id".data]]) [] "T".data
    [["id".data]] [("T".data, [["id".data]])] 1 (by decide)

/-- C7 counterexample: with an unavailable upstream, two requests for the
same table's columns issue two upstream fetches (a failed fetch is not
cached), contradicting the claim's unconditional "at most one upstream
fetch". -/
theorem C7_counterexample :
    (columns_request (fun _ => none) [] "T".data).2.2 +
      (columns_request (fun _ => none)
        (columns_request (fun _ => none) [] "T".data).2.1 "T".data).2.2 = 2 ∧
    ¬((columns_request (fun _ => none) [] "T".data).2.2 +
      (columns_request (fun _ => none)
        (columns_request (fun _ => none) [] "T".data).2.1 "T".data).2.2 ≤ 1) := by
  refine ⟨by decide, by decide⟩

/-! ### Claims on pipe -/

/-- C5: when the selector returns an empty list, `pipe` terminates with the
cannot-identify-relevant-tables message, performs no retry round (so the
synthesizer and the executor are never called) and does not invoke the
summarizer. -/
theorem C5_empty_selection_short_circuit (env : PipeEnv)
    (available_tables : List (List Char)) (uq : List Char)
    (h : select_relevant_tables available_tables env.classifierResp = []) :
    pipe env available_tables uq = (noTablesMsg, [], false) := by
  rw [pipe]
  simp [h]

/-- C5 witness: with a classifier that answers nothing, `pipe` returns the
fixed failure message with an empty round trace. -/
theorem C5_empty_selection_witness :
    select_relevant_tables ["T".data] emptySelectPipeEnv.classifierResp = [] ∧
    pipe emptySelectPipeEnv ["T".data] "q".data = (noTablesMsg, [], false) := by
  refine ⟨by decide, ?_⟩
  exact C5_empty_selection_short_circuit emptySelectPipeEnv ["T".data] "q".data (by decide)

/-- Evaluation of `optStr` on a present value. -/
theorem optStr_some (s : List Char) : optStr (some s) = s := rfl

/-- C8 (amended): when tables were selected and the terminal executor outcome
is a failure (exhausted retries), the summarizer is still invoked, and the
final response contains the selected tables, the last attempted query, the
last executor result (hence the last error text) and the exhaustion message.
(The synthesis-failure early return, by contrast, surfaces only the error;
see the counterexample.) -/
theorem C8_exhausted_run_exposes_all (env : PipeEnv)
    (available_tables : List (List Char)) (uq : List Char) (r : List Char)
    (hsel : select_relevant_tables available_tables env.classifierResp ≠ [])
    (hres : (try_execute_query ⟨env.genSql, env.runQuery⟩ uq
        (select_relevant_tables available_tables env.classifierResp) 1 3 none).1.2.1 =
      some r)
    (hmark : pyStartsWith errMark r = true) :
    (pipe env available_tables uq).2.2 = true ∧
    pyJoin ", ".data (select_relevant_tables available_tables env.classifierResp) <:+:
      (pipe env available_tables uq).1 ∧
    (∃ sq, (try_execute_query ⟨env.genSql, env.runQuery⟩ uq
        (select_relevant_tables available_tables env.classifierResp) 1 3 none).1.1 =
          some sq ∧ sq <:+: (pipe env available_tables uq).1) ∧
    r <:+: (pipe env available_tables uq).1 ∧
    (∃ e, (try_execute_query ⟨env.genSql, env.runQuery⟩ uq
        (select_relevant_tables available_tables env.classifierResp) 1 3 none).1.2.2 =
          some (failedAfterMsg 3 e) ∧
      failedAfterMsg 3 e <:+: (pipe env available_tables uq).1) := by
  set selected := select_relevant_tables available_tables env.classifierResp with hselset
  set renv : RetryEnv := ⟨env.genSql, env.runQuery⟩ with hrenv
  rcases go_out_cases renv uq selected 3 2 1 none with h | ⟨q', r', h, hfalse⟩ |
    ⟨q', r', e', h, htrue, _, _⟩
  · rw [show (try_execute_query renv uq selected 1 3 none).1 =
      (try_execute_query_go renv uq selected 3 2 1 none).1 from rfl, h] at hres
    simp at hres
  · rw [show (try_execute_query renv uq selected 1 3 none).1 =
      (try_execute_query_go renv uq selected 3 2 1 none).1 from rfl, h] at hres
    simp only [Option.some.injEq] at hres
    rw [hres, hmark] at hfalse
    simp at hfalse
  · have hout : (try_execute_query renv uq selected 1 3 none).1 =
        (some q', some r', some (failedAfterMsg 3 e')) := h
    have hr' : r' = r := by
      have := hout ▸ hres
      simpa using this
    rw [hr'] at hout
    have hrne : r ≠ [] := by
      intro hnil
      rw [hnil] at hmark
      cases hmark
    have hcond : (pyTruthyOpt (some (failedAfterMsg 3 e')) &&
        !pyTruthyOpt (some r)) = false := by
      have : pyTruthyOpt (some r) = true := by
        simp [pyTruthyOpt, List.isEmpty_iff, hrne]
      simp [this]
    rw [pipe]
    simp only [← hselset, if_neg hsel, ← hrenv, hout, hcond, Bool.false_eq_true,
      if_false, optStr_some]
    refine ⟨by trivial, ?_, ?_, ?_, ?_⟩
    · exact ⟨"Selected tables: ".data,
        "\n".data ++ retryNote (some (failedAfterMsg 3 e')) ++
          "\nGenerated SQL Query:\n".data ++ "```sql\n".data ++ q' ++
          "\n```\n\n".data ++ r ++
          (if pyTruthyOpt (summarize_results env.summaryResp) then
            "\nSummary:\n".data ++ optStr (summarize_results env.summaryResp) else []),
        by simp⟩
    · refine ⟨q', rfl, ?_⟩
      exact ⟨"Selected tables: ".data ++ pyJoin ", ".data selected ++ "\n".data ++
          retryNote (some (failedAfterMsg 3 e')) ++ "\nGenerated SQL Query:\n".data ++
          "```sql\n".data,
        "\n```\n\n".data ++ r ++
          (if pyTruthyOpt (summarize_results env.summaryResp) then
            "\nSummary:\n".data ++ optStr (summarize_results env.summaryResp) else []),
        by simp⟩
    · exact ⟨"Selected tables: ".data ++ pyJoin ", ".data selected ++ "\n".data ++
          retryNote (some (failedAfterMsg 3 e')) ++ "\nGenerated SQL Query:\n".data ++
          "```sql\n".data ++ q' ++ "\n```\n\n".data,
        (if pyTruthyOpt (summarize_results env.summaryResp) then
            "\nSummary:\n".data ++ optStr (summarize_results env.summaryResp) else []),
        by simp⟩
    · refine ⟨e', rfl, ?_⟩
      refine ⟨"Selected tables: ".data ++ pyJoin ", ".data selected ++ "\n".data ++
          "\nNote: Query succeeded after retries. Original error: ".data,
        "\n".data ++ "\nGenerated SQL Query:\n".data ++ "```sql\n".data ++ q' ++
          "\n```\n\n".data ++ r ++
          (if pyTruthyOpt (summarize_results env.summaryResp) then
            "\nSummary:\n".data ++ optStr (summarize_results env.summaryResp) else []),
        ?_⟩
      have hnote : retryNote (some (failedAfterMsg 3 e')) =
          "\nNote: Query succeeded after retries. Original error: ".data ++
            failedAfterMsg 3 e' ++ "\n".data := rfl
      rw [hnote]
      simp


/-- C8 witness: in the always-failing pipe environment all hypotheses hold,
the summarizer is invoked and the selected-tables string occurs in the final
response. -/
theorem C8_exhausted_run_witness :
    select_relevant_tables ["T".data] allFailPipeEnv.classifierResp ≠ [] ∧
    (try_execute_query ⟨allFailPipeEnv.genSql, allFailPipeEnv.runQuery⟩ "q".data
        (select_relevant_tables ["T".data] allFailPipeEnv.classifierResp) 1 3 none).1.2.1 =
      some (fetch_query_result (QueryResp.error "boom".data)) ∧
    pyStartsWith errMark (fetch_query_result (QueryResp.error "boom".data)) = true ∧
    (pipe allFailPipeEnv ["T".data] "q".data).2.2 = true ∧
    pyJoin ", ".data (select_relevant_tables ["T".data] allFailPipeEnv.classifierResp) <:+:
      (pipe allFailPipeEnv ["T".data] "q".data).1 := by
  refine ⟨by decide, by decide, by decide, ?_, ?_⟩
  · exact (C8_exhausted_run_exposes_all allFailPipeEnv ["T".data] "q".data
      (fetch_query_result (QueryResp.error "boom".data)) (by decide) (by decide)
      (by decide)).1
  · exact (C8_exhausted_run_exposes_all allFailPipeEnv ["T".data] "q".data
      (fetch_query_result (QueryResp.error "boom".data)) (by decide) (by decide)
      (by decide)).2.1

/-- C8 counterexample: on a synthesis-failure run the response is the bare
early-return error and does not include the computed selected tables, so a
partial-failure response does not always expose whatever was computed. -/
theorem C8_counterexample :
    select_relevant_tables ["Customers".data] synthFailPipeEnv.classifierResp =
      ["Customers".data] ∧
    (pipe synthFailPipeEnv ["Customers".data] "q".data).1 =
      "Failed to execute query: Failed to generate SQL query".data ∧
    ¬("Customers".data <:+: (pipe synthFailPipeEnv ["Customers".data] "q".data).1) := by
  refine ⟨by decide, by decide, by decide⟩

/-! ### String lemmas for the synthesizer post-processing -/

/-- Agreement of `pyStartsWith` with `List.IsPrefix`. -/
theorem pyStartsWith_iff {sub l : List Char} : pyStartsWith sub l = true ↔ sub <+: l := by
  induction sub generalizing l with
  | nil => simp [pyStartsWith]
  | cons a as ih =>
    cases l with
    | nil => simp [pyStartsWith]
    | cons b bs =>
      rw [pyStartsWith]
      by_cases hab : a = b
      · subst hab
        rw [if_pos rfl]
        simp only [List.cons_prefix_cons, true_and, ih]
      · simp only [if_neg hab, List.cons_prefix_cons]
        simp [hab]

/-- A failed `pyFindAux` search means no occurrence at any index. -/
theorem pyFindAux_none {sub l : List Char} (hsub : sub ≠ [])
    (h : pyFindAux sub l = none) : ∀ j, pyStartsWith sub (l.drop j) = false := by
  induction l with
  | nil =>
    intro j
    rw [List.drop_nil]
    cases sub with
    | nil => exact absurd rfl hsub
    | cons a as => rfl
  | cons c rest ih =>
    rw [pyFindAux] at h
    by_cases hp : pyStartsWith sub (c :: rest) = true
    · rw [if_pos hp] at h
      cases h
    · rw [if_neg hp] at h
      have hrest : pyFindAux sub rest = none := by
        cases hfa : pyFindAux sub rest with
        | none => rfl
        | some i => rw [hfa] at h; cases h
      intro j
      cases j with
      | zero =>
        rw [List.drop_zero]
        exact Bool.not_eq_true _ ▸ hp
      | succ j' =>
        rw [List.drop_succ_cons]
        exact ih hrest j'

/-- A successful `pyFindAux` search returns the first occurrence. -/
theorem pyFindAux_some {sub l : List Char} {i : Nat} (h : pyFindAux sub l = some i) :
    pyStartsWith sub (l.drop i) = true ∧
      ∀ j, j < i → pyStartsWith sub (l.drop j) = false := by
  induction l generalizing i with
  | nil => cases h
  | cons c rest ih =>
    rw [pyFindAux] at h
    by_cases hp : pyStartsWith sub (c :: rest) = true
    · rw [if_pos hp] at h
      injection h with h
      subst h
      exact ⟨hp, fun j hj => absurd hj (Nat.not_lt_zero j)⟩
    · rw [if_neg hp] at h
      cases hfa : pyFindAux sub rest with
      | none => rw [hfa] at h; cases h
      | some i' =>
        rw [hfa] at h
        simp only [Option.map_some', Option.some.injEq] at h
        subst h
        rcases ih hfa with ⟨h1, h2⟩
        refine ⟨h1, fun j hj => ?_⟩
        cases j with
        | zero =>
          rw [List.drop_zero]
          exact Bool.not_eq_true _ ▸ hp
        | succ j' =>
          rw [List.drop_succ_cons]
          exact h2 j' (by omega)

/-- A failed `pyFind` search from `start` means no occurrence at or past
`start`. -/
theorem pyFind_none {s sub : List Char} {start : Nat} (hsub : sub ≠ [])
    (h : pyFind s sub start = none) :
    ∀ j, start ≤ j → pyStartsWith sub (s.drop j) = false := by
  intro j hj
  rw [pyFind] at h
  have haux : pyFindAux sub (s.drop start) = none := by
    cases hfa : pyFindAux sub (s.drop start) with
    | none => rfl
    | some i => rw [hfa] at h; cases h
  have := pyFindAux_none hsub haux (j - start)
  rwa [List.drop_drop, Nat.add_sub_cancel' hj] at this

/-- A successful `pyFind` search from `start` returns the first occurrence at
or past `start`. -/
theorem pyFind_some {s sub : List Char} {start i : Nat}
    (h : pyFind s sub start = some i) :
    start ≤ i ∧ pyStartsWith sub (s.drop i) = true ∧
      ∀ j, start ≤ j → j < i → pyStartsWith sub (s.drop j) = false := by
  rw [pyFind] at h
  cases hfa : pyFindAux sub (s.drop start) with
  | none => rw [hfa] at h; cases h
  | some i0 =>
    rw [hfa] at h
    simp only [Option.map_some', Option.some.injEq] at h
    subst h
    rcases pyFindAux_some hfa with ⟨h1, h2⟩
    refine ⟨by omega, ?_, ?_⟩
    · rw [List.drop_drop, Nat.add_comm] at h1
      exact h1
    · intro j hj1 hj2
      have := h2 (j - start) (by omega)
      rwa [List.drop_drop, Nat.add_sub_cancel' hj1] at this

/-- Occurrence-at-an-index characterisation of `List.IsInfix`. -/
theorem infix_iff_startsWith_drop {sub l : List Char} :
    sub <:+: l ↔ ∃ j, pyStartsWith sub (l.drop j) = true := by
  constructor
  · rintro ⟨u, v, huv⟩
    refine ⟨u.length, ?_⟩
    rw [pyStartsWith_iff]
    have : l.drop u.length = sub ++ v := by
      rw [← huv, List.append_assoc, List.drop_left]
    rw [this]
    exact List.prefix_append sub v
  · rintro ⟨j, hj⟩
    rw [pyStartsWith_iff] at hj
    rcases hj with ⟨v, hv⟩
    exact ⟨l.take j, v, by rw [List.append_assoc, hv, List.take_append_drop]⟩

/-- Splitting: `afterFirstNewline` splits at the first newline. -/
theorem afterFirstNewline_some {s r : List Char} (h : afterFirstNewline s = some r) :
    ∃ pre, s = pre ++ '\n' :: r ∧ '\n' ∉ pre := by
  induction s generalizing r with
  | nil => cases h
  | cons c rest ih =>
    rw [afterFirstNewline] at h
    by_cases hc : c = '\n'
    · rw [if_pos hc] at h
      injection h with h
      subst h
      subst hc
      exact ⟨[], rfl, by simp⟩
    · rw [if_neg hc] at h
      rcases ih h with ⟨pre, hpre, hmem⟩
      refine ⟨c :: pre, by rw [List.cons_append, hpre], ?_⟩
      simp only [List.mem_cons, not_or]
      exact ⟨fun hx => hc hx.symm, hmem⟩

/-- The head of a `dropWhile` result falsifies the predicate. -/
theorem dropWhile_head_false {p : Char → Bool} :
    ∀ {l : List Char} {c : Char} {t : List Char}, l.dropWhile p = c :: t → p c = false := by
  intro l
  induction l with
  | nil => intro c t h; cases h
  | cons a as ih =>
    intro c t h
    rw [List.dropWhile_cons] at h
    by_cases ha : p a = true
    · rw [if_pos ha] at h
      exact ih h
    · rw [if_neg ha] at h
      injection h with h1 _
      subst h1
      exact Bool.not_eq_true _ ▸ ha

/-- The stripped string is a contiguous part of the original. -/
theorem pyStrip_isInfix (s : List Char) : pyStrip s <:+: s := by
  have h1 : s.dropWhile pyIsSpace <:+ s := List.dropWhile_suffix pyIsSpace
  have h2 : (s.dropWhile pyIsSpace).reverse.dropWhile pyIsSpace <:+
      (s.dropWhile pyIsSpace).reverse := List.dropWhile_suffix pyIsSpace
  rcases h1 with ⟨u, hu⟩
  rcases h2 with ⟨w, hw⟩
  have hpre : pyStrip s <+: s.dropWhile pyIsSpace := by
    rw [pyStrip]
    refine ⟨w.reverse, ?_⟩
    rw [← List.reverse_append, hw, List.reverse_reverse]
  rcases hpre with ⟨v, hv⟩
  exact ⟨u, v, by rw [List.append_assoc, hv, hu]⟩

/-- A nonempty stripped string starts with a non-whitespace character. -/
theorem pyStrip_head_not_space {s : List Char} {c : Char}
    (h : (pyStrip s).head? = some c) : pyIsSpace c = false := by
  rw [pyStrip, List.head?_reverse] at h
  rcases List.getLast?_eq_some_iff.mp h with ⟨ys, hys⟩
  have hsfx : (s.dropWhile pyIsSpace).reverse.dropWhile pyIsSpace <:+
      (s.dropWhile pyIsSpace).reverse := List.dropWhile_suffix pyIsSpace
  rcases hsfx with ⟨u, hu⟩
  rw [hys] at hu
  have : s.dropWhile pyIsSpace = c :: (ys.reverse ++ u.reverse) := by
    have h2 := congrArg List.reverse hu
    simp only [List.reverse_append, List.reverse_reverse, List.reverse_cons,
      List.append_assoc] at h2
    rw [← h2]
    simp
  exact dropWhile_head_false this

/-- A nonempty stripped string ends with a non-whitespace character. -/
theorem pyStrip_getLast_not_space {s : List Char} {c : Char}
    (h : (pyStrip s).getLast? = some c) : pyIsSpace c = false := by
  rw [pyStrip, List.getLast?_reverse] at h
  rcases List.head?_eq_some_iff.mp h with ⟨ys, hys⟩
  exact dropWhile_head_false hys

/-- A string that neither starts nor ends with whitespace is its own strip. -/
theorem pyStrip_eq_self {s : List Char}
    (h1 : ∀ c, s.head? = some c → pyIsSpace c = false)
    (h2 : ∀ c, s.getLast? = some c → pyIsSpace c = false) : pyStrip s = s := by
  cases s with
  | nil => rfl
  | cons c t =>
    have hd : (c :: t).dropWhile pyIsSpace = c :: t := by
      rw [List.dropWhile_cons_of_neg]
      simp [h1 c rfl]
    rw [pyStrip, hd]
    cases hr : (c :: t).reverse with
    | nil =>
      have := congrArg List.length hr
      simp at this
    | cons c' t' =>
      have hlast : (c :: t).getLast? = some c' := by
        rw [List.getLast?_eq_head?_reverse, hr]
        rfl
      rw [List.dropWhile_cons_of_neg (by simp [h2 c' hlast])]
      rw [← hr, List.reverse_reverse]

theorem pySplitlines_cons_general {c0 : Char} {rest : List Char}
    (hne : ∀ (r : List Char), c0 = '\r' → rest = '\n' :: r → False) :
    pySplitlines (c0 :: rest) =
      if isLineBreak c0 then [] :: pySplitlines rest
      else
        match pySplitlines rest with
        | [] => [[c0]]
        | l :: ls => (c0 :: l) :: ls := by
  rw [pySplitlines.eq_def]
  split
  · rename_i heq
    cases heq
  · rename_i h1 h2
    injection h2 with hc hrest
    exact (hne h1 hc hrest).elim
  · rename_i c1 h1 hfresh h3
    injection h3 with hc hrest
    subst hc
    subst hrest
    rfl

/-- No fragment produced by `pySplitlines` contains a line-break character. -/
theorem pySplitlines_no_break :
    ∀ (s : List Char), ∀ l ∈ pySplitlines s, ∀ c ∈ l, isLineBreak c = false := by
  intro s
  induction s using pySplitlines.induct with
  | case1 =>
    intro l hl
    simp [pySplitlines] at hl
  | case2 rest ih =>
    intro l hl c hc
    rw [pySplitlines] at hl
    rcases List.mem_cons.mp hl with h | h
    · subst h; cases hc
    · exact ih l h c hc
  | case3 c0 rest hne hbreak ih =>
    intro l hl c hc
    rw [pySplitlines_cons_general hne, if_pos hbreak] at hl
    rcases List.mem_cons.mp hl with h | h
    · subst h; cases hc
    · exact ih l h c hc
  | case4 c0 rest hne hbreak hmatch ih =>
    intro l hl c hc
    rw [pySplitlines_cons_general hne, if_neg hbreak, hmatch] at hl
    rcases List.mem_cons.mp hl with h | h
    · subst h
      rcases List.mem_cons.mp hc with h' | h'
      · subst h'
        exact Bool.not_eq_true _ ▸ hbreak
      · cases h'
    · cases h
  | case5 c0 rest hne hbreak l0 ls hmatch ih =>
    intro l hl c hc
    rw [pySplitlines_cons_general hne, if_neg hbreak, hmatch] at hl
    rcases List.mem_cons.mp hl with h | h
    · subst h
      rcases List.mem_cons.mp hc with h' | h'
      · subst h'
        exact Bool.not_eq_true _ ▸ hbreak
      · exact ih l0 (hmatch ▸ List.mem_cons_self l0 ls) c h'
    · exact ih l (hmatch ▸ List.mem_cons_of_mem l0 h) c hc

/-- Every fragment of `pySplitlines` is a contiguous part of the original
string (and the first fragment is a prefix). -/
theorem pySplitlines_parts_structure :
    ∀ (s : List Char), (∀ l ∈ pySplitlines s, l <:+: s) ∧
      (∀ f fs, pySplitlines s = f :: fs → f <+: s) := by
  intro s
  induction s using pySplitlines.induct with
  | case1 =>
    refine ⟨?_, ?_⟩
    · intro l hl
      simp [pySplitlines] at hl
    · intro f fs h
      rw [pySplitlines] at h
      cases h
  | case2 rest ih =>
    have hsfx : rest <:+ '\r' :: '\n' :: rest :=
      (List.suffix_cons '\n' rest).trans (List.suffix_cons '\r' ('\n' :: rest))
    refine ⟨?_, ?_⟩
    · intro l hl
      rw [pySplitlines] at hl
      rcases List.mem_cons.mp hl with h | h
      · subst h
        exact List.nil_infix
      · exact (ih.1 l h).trans hsfx.isInfix
    · intro f fs h
      rw [pySplitlines] at h
      injection h with h1 _
      subst h1
      exact List.nil_prefix
  | case3 c0 rest hne hbreak ih =>
    have hsfx : rest <:+ c0 :: rest := List.suffix_cons c0 rest
    refine ⟨?_, ?_⟩
    · intro l hl
      rw [pySplitlines_cons_general hne, if_pos hbreak] at hl
      rcases List.mem_cons.mp hl with h | h
      · subst h
        exact List.nil_infix
      · exact (ih.1 l h).trans hsfx.isInfix
    · intro f fs h
      rw [pySplitlines_cons_general hne, if_pos hbreak] at h
      injection h with h1 _
      subst h1
      exact List.nil_prefix
  | case4 c0 rest hne hbreak hmatch ih =>
    refine ⟨?_, ?_⟩
    · intro l hl
      rw [pySplitlines_cons_general hne, if_neg hbreak, hmatch] at hl
      rcases List.mem_cons.mp hl with h | h
      · subst h
        exact (List.cons_prefix_cons.mpr ⟨rfl, List.nil_prefix⟩).isInfix
      · cases h
    · intro f fs h
      rw [pySplitlines_cons_general hne, if_neg hbreak, hmatch] at h
      injection h with h1 _
      subst h1
      exact List.cons_prefix_cons.mpr ⟨rfl, List.nil_prefix⟩
  | case5 c0 rest hne hbreak l0 ls hmatch ih =>
    have hsfx : rest <:+ c0 :: rest := List.suffix_cons c0 rest
    have hpre : l0 <+: rest := ih.2 l0 ls hmatch
    refine ⟨?_, ?_⟩
    · intro l hl
      rw [pySplitlines_cons_general hne, if_neg hbreak, hmatch] at hl
      rcases List.mem_cons.mp hl with h | h
      · subst h
        exact (List.cons_prefix_cons.mpr ⟨rfl, hpre⟩).isInfix
      · exact (ih.1 l (hmatch ▸ List.mem_cons_of_mem l0 h)).trans hsfx.isInfix
    · intro f fs h
      rw [pySplitlines_cons_general hne, if_neg hbreak, hmatch] at h
      injection h with h1 _
      subst h1
      exact List.cons_prefix_cons.mpr ⟨rfl, hpre⟩

/-- Every fragment of `pySplitlines` is an infix of the original string. -/
theorem pySplitlines_isInfix {s l : List Char} (h : l ∈ pySplitlines s) : l <:+: s :=
  (pySplitlines_parts_structure s).1 l h


/-- The join tail is the separator followed by the join of the rest. -/
theorem pyJoinRest_eq_cons (sep l : List Char) (ls : List (List Char)) :
    pyJoinRest sep (l :: ls) = sep ++ pyJoin sep (l :: ls) := by
  rw [pyJoinRest, pyJoin, List.append_assoc]

/-- Characters of a join tail come from the separator or from a part. -/
theorem mem_pyJoinRest {sep : List Char} {c : Char} :
    ∀ {ls : List (List Char)}, c ∈ pyJoinRest sep ls → c ∈ sep ∨ ∃ p ∈ ls, c ∈ p := by
  intro ls
  induction ls with
  | nil => intro h; cases h
  | cons l ls ih =>
    intro h
    rw [pyJoinRest] at h
    rcases List.mem_append.mp h with h1 | h1
    · rcases List.mem_append.mp h1 with h2 | h2
      · exact Or.inl h2
      · exact Or.inr ⟨l, List.mem_cons_self l ls, h2⟩
    · rcases ih h1 with h2 | ⟨p, hp, hc⟩
      · exact Or.inl h2
      · exact Or.inr ⟨p, List.mem_cons_of_mem l hp, hc⟩

/-- Characters of a join come from the separator or from a part. -/
theorem mem_pyJoin {sep : List Char} {c : Char} {parts : List (List Char)}
    (h : c ∈ pyJoin sep parts) : c ∈ sep ∨ ∃ p ∈ parts, c ∈ p := by
  cases parts with
  | nil => cases h
  | cons l ls =>
    rw [pyJoin] at h
    rcases List.mem_append.mp h with h1 | h1
    · exact Or.inr ⟨l, List.mem_cons_self l ls, h1⟩
    · rcases mem_pyJoinRest h1 with h2 | ⟨p, hp, hc⟩
      · exact Or.inl h2
      · exact Or.inr ⟨p, List.mem_cons_of_mem l hp, hc⟩

/-- The head of a join of nonempty parts is the head of the first part. -/
theorem pyJoin_head? (sep : List Char) (p0 : List Char) (ps : List (List Char))
    (h : p0 ≠ []) : (pyJoin sep (p0 :: ps)).head? = p0.head? := by
  cases p0 with
  | nil => exact absurd rfl h
  | cons c t => rfl

/-- A join of nonempty parts is nonempty. -/
theorem pyJoin_ne_nil (sep : List Char) (p0 : List Char) (ps : List (List Char))
    (h : p0 ≠ []) : pyJoin sep (p0 :: ps) ≠ [] := by
  cases p0 with
  | nil => exact absurd rfl h
  | cons c t => simp [pyJoin]

/-- The last element of a join of nonempty parts is the last element of one of
the parts. -/
theorem pyJoin_getLast?_mem (sep : List Char) :
    ∀ (ps : List (List Char)) (p0 : List Char), (∀ p ∈ p0 :: ps, p ≠ []) →
      ∃ p, p ∈ p0 :: ps ∧ (pyJoin sep (p0 :: ps)).getLast? = p.getLast? := by
  intro ps
  induction ps with
  | nil =>
    intro p0 _
    refine ⟨p0, List.mem_cons_self p0 [], ?_⟩
    rw [pyJoin, pyJoinRest, List.append_nil]
  | cons p1 ps' ih =>
    intro p0 hne
    rcases ih p1 (fun p hp => hne p (List.mem_cons_of_mem p0 hp)) with ⟨p, hp, hlast⟩
    refine ⟨p, List.mem_cons_of_mem p0 hp, ?_⟩
    rw [pyJoin, pyJoinRest_eq_cons, List.getLast?_append, List.getLast?_append]
    have hjoin : (pyJoin sep (p1 :: ps')).getLast? = p.getLast? := hlast
    have hpne : p ≠ [] := hne p (List.mem_cons_of_mem p0 hp)
    have : p.getLast?.isSome := List.getLast?_isSome.mpr hpne
    cases hsome : p.getLast? with
    | none => rw [hsome] at this; cases this
    | some x =>
      rw [hjoin, hsome]
      rfl

/-- An occurrence inside an append is inside one side or spans the boundary. -/
theorem infix_of_append {sub a b : List Char} (h : sub <:+: a ++ b) :
    sub <:+: a ∨ sub <:+: b ∨
      ∃ s1 s2, sub = s1 ++ s2 ∧ s1 ≠ [] ∧ s2 ≠ [] ∧ s1 <:+ a ∧ s2 <+: b := by
  rcases h with ⟨u, v, huv⟩
  have htake : a = u.take a.length ++ (sub.take (a.length - u.length) ++
      v.take (a.length - u.length - sub.length)) := by
    have h0 : a = (u ++ (sub ++ v)).take a.length := by
      rw [← List.append_assoc, huv, List.take_left]
    rw [List.take_append_eq_append_take, List.take_append_eq_append_take] at h0
    exact h0
  have hdrop : b = u.drop a.length ++ (sub.drop (a.length - u.length) ++
      v.drop (a.length - u.length - sub.length)) := by
    have h0 : b = (u ++ (sub ++ v)).drop a.length := by
      rw [← List.append_assoc, huv, List.drop_left]
    rw [List.drop_append_eq_append_drop, List.drop_append_eq_append_drop] at h0
    exact h0
  by_cases hc1 : u.length + sub.length ≤ a.length
  · left
    rw [List.take_of_length_le (by omega), List.take_of_length_le (by omega)] at htake
    exact ⟨u, v.take (a.length - u.length - sub.length),
      by rw [← List.append_assoc] at htake; exact htake.symm⟩
  · by_cases hc2 : a.length ≤ u.length
    · right; left
      rw [Nat.sub_eq_zero_of_le hc2, Nat.zero_sub, List.drop_zero, List.drop_zero] at hdrop
      exact ⟨u.drop a.length, v, by rw [← List.append_assoc] at hdrop; exact hdrop.symm⟩
    · right; right
      have hm1 : u.length < a.length := by omega
      have hm2 : a.length < u.length + sub.length := by omega
      refine ⟨sub.take (a.length - u.length), sub.drop (a.length - u.length),
        (List.take_append_drop _ sub).symm, ?_, ?_, ?_, ?_⟩
      · intro hnil
        have := congrArg List.length hnil
        simp only [List.length_take, List.length_nil] at this
        omega
      · intro hnil
        have := congrArg List.length hnil
        simp only [List.length_drop, List.length_nil] at this
        omega
      · have e1 : a.length - u.length - sub.length = 0 := by omega
        rw [List.take_of_length_le (by omega), e1, List.take_zero,
          List.append_nil] at htake
        exact ⟨u, htake.symm⟩
      · have e1 : a.length - u.length - sub.length = 0 := by omega
        rw [List.drop_eq_nil_of_le (by omega), List.nil_append, e1,
          List.drop_zero] at hdrop
        exact ⟨v, hdrop.symm⟩

/-- An occurrence inside `x :: Y` either is empty, starts at the head, or lies
inside `Y`. -/
theorem infix_cons_elim {sub : List Char} {x : Char} {Y : List Char}
    (h : sub <:+: x :: Y) : sub = [] ∨ (∃ t, sub = x :: t) ∨ sub <:+: Y := by
  rcases h with ⟨u, v, huv⟩
  cases u with
  | nil =>
    cases sub with
    | nil => exact Or.inl rfl
    | cons c t =>
      rw [List.nil_append] at huv
      injection huv with h1 h2
      subst h1
      exact Or.inr (Or.inl ⟨t, rfl⟩)
  | cons u0 u' =>
    rw [List.cons_append, List.cons_append] at huv
    injection huv with _ h2
    exact Or.inr (Or.inr ⟨u', v, h2⟩)


/-- A space-free occurrence inside a space-join tail lies inside one part. -/
theorem infix_pyJoinRest_space {sub : List Char} (hs : sub ≠ []) (hsp : ' ' ∉ sub) :
    ∀ ls : List (List Char), sub <:+: pyJoinRest " ".data ls → ∃ p ∈ ls, sub <:+: p := by
  intro ls
  induction ls with
  | nil =>
    intro h
    rw [pyJoinRest] at h
    exact absurd (List.infix_nil.mp h) hs
  | cons l1 ls' ih =>
    intro h
    have hshape : pyJoinRest " ".data (l1 :: ls') = ' ' :: (l1 ++ pyJoinRest " ".data ls') := rfl
    rw [hshape] at h
    rcases infix_cons_elim h with h1 | ⟨t, ht⟩ | h1
    · exact absurd h1 hs
    · exact absurd (ht ▸ List.mem_cons_self ' ' t) hsp
    · rcases infix_of_append h1 with h2 | h2 | ⟨s1, s2, hsub, hs1, hs2, _, hpre⟩
      · exact ⟨l1, List.mem_cons_self l1 ls', h2⟩
      · rcases ih h2 with ⟨p, hp, hin⟩
        exact ⟨p, List.mem_cons_of_mem l1 hp, hin⟩
      · exfalso
        cases ls' with
        | nil =>
          rw [pyJoinRest] at hpre
          exact hs2 (List.prefix_nil.mp hpre)
        | cons l2 ls'' =>
          have : pyJoinRest " ".data (l2 :: ls'') =
              ' ' :: (l2 ++ pyJoinRest " ".data ls'') := rfl
          rw [this] at hpre
          cases s2 with
          | nil => exact hs2 rfl
          | cons c2 t2 =>
            rcases List.cons_prefix_cons.mp hpre with ⟨hc2, _⟩
            subst hc2
            exact hsp (hsub ▸ List.mem_append.mpr (Or.inr (List.mem_cons_self ' ' t2)))

/-- A space-free occurrence inside a space-join lies inside one part. -/
theorem infix_pyJoin_space {sub : List Char} (hs : sub ≠ []) (hsp : ' ' ∉ sub)
    {parts : List (List Char)} (h : sub <:+: pyJoin " ".data parts) :
    ∃ p ∈ parts, sub <:+: p := by
  cases parts with
  | nil =>
    rw [pyJoin] at h
    exact absurd (List.infix_nil.mp h) hs
  | cons l ls =>
    rw [pyJoin] at h
    rcases infix_of_append h with h2 | h2 | ⟨s1, s2, hsub, hs1, hs2, _, hpre⟩
    · exact ⟨l, List.mem_cons_self l ls, h2⟩
    · rcases infix_pyJoinRest_space hs hsp ls h2 with ⟨p, hp, hin⟩
      exact ⟨p, List.mem_cons_of_mem l hp, hin⟩
    · exfalso
      cases ls with
      | nil =>
        rw [pyJoinRest] at hpre
        exact hs2 (List.prefix_nil.mp hpre)
      | cons l2 ls'' =>
        have hshape : pyJoinRest " ".data (l2 :: ls'') =
            ' ' :: (l2 ++ pyJoinRest " ".data ls'') := rfl
        rw [hshape] at hpre
        cases s2 with
        | nil => exact hs2 rfl
        | cons c2 t2 =>
          rcases List.cons_prefix_cons.mp hpre with ⟨hc2, _⟩
          subst hc2
          exact hsp (hsub ▸ List.mem_append.mpr (Or.inr (List.mem_cons_self ' ' t2)))


/-- Each part joined by `normalize_query` is the nonempty strip of a
fragment of the input. -/
theorem normalize_query_part {q p : List Char}
    (hp : p ∈ ((pySplitlines q).map pyStrip).filter (fun l => !l.isEmpty)) :
    p ≠ [] ∧ ∃ frag ∈ pySplitlines q, p = pyStrip frag := by
  have hmem := List.mem_of_mem_filter hp
  have hcond := List.of_mem_filter hp
  rcases List.mem_map.mp hmem with ⟨frag, hfrag, hstrip⟩
  refine ⟨?_, frag, hfrag, hstrip.symm⟩
  intro hnil
  rw [hnil] at hcond
  cases hcond

/-- The normalised query contains no line-break character. -/
theorem normalize_query_no_break {q : List Char} {c : Char}
    (hc : isLineBreak c = true) : c ∉ normalize_query q := by
  intro hmem
  rw [normalize_query] at hmem
  rcases mem_pyJoin hmem with hsep | ⟨p, hp, hcp⟩
  · rcases List.mem_cons.mp hsep with h | h
    · subst h; cases hc
    · cases h
  · rcases normalize_query_part hp with ⟨_, frag, hfrag, hstrip⟩
    have hcf : c ∈ frag := (pyStrip_isInfix frag).subset (hstrip ▸ hcp)
    have := pySplitlines_no_break q frag hfrag c hcf
    rw [hc] at this
    cases this

/-- The normalised query has no leading or trailing whitespace. -/
theorem normalize_query_stripped (q : List Char) :
    pyStrip (normalize_query q) = normalize_query q := by
  rw [normalize_query]
  cases hparts : ((pySplitlines q).map pyStrip).filter (fun l => !l.isEmpty) with
  | nil => rfl
  | cons p0 ps =>
    have hp0 : p0 ∈ ((pySplitlines q).map pyStrip).filter (fun l => !l.isEmpty) :=
      hparts ▸ List.mem_cons_self p0 ps
    rcases normalize_query_part hp0 with ⟨hp0ne, frag0, _, hstrip0⟩
    apply pyStrip_eq_self
    · intro c hc
      rw [pyJoin_head? " ".data p0 ps hp0ne] at hc
      rw [hstrip0] at hc
      exact pyStrip_head_not_space hc
    · intro c hc
      rcases pyJoin_getLast?_mem " ".data ps p0
          (fun p hp => (normalize_query_part (hparts ▸ hp)).1) with ⟨p, hp, hlast⟩
      rw [hlast] at hc
      rcases normalize_query_part (hparts ▸ hp) with ⟨_, frag, _, hstrip⟩
      rw [hstrip] at hc
      exact pyStrip_getLast_not_space hc

/-- Normalisation introduces no fence occurrence. -/
theorem normalize_query_no_fence {q : List Char} (h : ¬fenceMarker <:+: q) :
    ¬fenceMarker <:+: normalize_query q := by
  intro hin
  rw [normalize_query] at hin
  rcases infix_pyJoin_space (by decide) (by decide) hin with ⟨p, hp, hinp⟩
  rcases normalize_query_part hp with ⟨_, frag, hfrag, hstrip⟩
  exact h (((hstrip ▸ hinp).trans (pyStrip_isInfix frag)).trans (pySplitlines_isInfix hfrag))


/-- A prefix short enough survives `take`. -/
theorem prefix_take_of_le {sub l : List Char} {n : Nat} (h : sub <+: l)
    (hn : sub.length ≤ n) : sub <+: l.take n := by
  rw [List.prefix_iff_eq_take] at h ⊢
  rw [List.take_take, Nat.min_eq_left hn]
  exact h

/-- An occurrence inside `X.take k` is an occurrence inside `X` that ends by
index `k`. -/
theorem infix_take_occurrence {sub X : List Char} {k : Nat} {r : List Char}
    (hr : r = X.take k) (hin : sub <:+: r) :
    ∃ m, m + sub.length ≤ k ∧ pyStartsWith sub (X.drop m) = true := by
  rcases hin with ⟨u, v, huv⟩
  refine ⟨u.length, ?_, ?_⟩
  · have hlen : r.length ≤ k := by
      rw [hr, List.length_take]
      omega
    have : u.length + (sub.length + v.length) = r.length := by
      rw [← huv]
      simp [List.length_append]
    omega
  · have hdropu : r.drop u.length = sub ++ v := by
      rw [← huv, List.append_assoc, List.drop_left]
    rw [hr, List.drop_take] at hdropu
    rw [pyStartsWith_iff]
    have h1 : sub <+: (X.drop u.length).take (k - u.length) :=
      hdropu ▸ List.prefix_append sub v
    have h2 := List.take_prefix (k - u.length) (X.drop u.length)
    exact h1.trans h2

/-- When a fence prefixes the text split by `afterFirstNewline`, the part
before the newline is at least the fence long. -/
theorem fence_pre_length {sl pre r : List Char} (hfence : fenceMarker <+: sl)
    (hsplit : sl = pre ++ '\n' :: r) : 3 ≤ pre.length := by
  by_contra hlt
  have htake : sl.take 3 = fenceMarker := by
    rcases hfence with ⟨rest0, hrest0⟩
    rw [← hrest0, List.take_left' (by decide)]
  have hmem : '\n' ∈ sl.take 3 := by
    rw [hsplit, List.take_append_eq_append_take,
      List.take_of_length_le (by omega)]
    refine List.mem_append.mpr (Or.inr ?_)
    have h3 : ∃ k2, 3 - pre.length = k2 + 1 := ⟨2 - pre.length, by omega⟩
    rcases h3 with ⟨k2, hk2⟩
    rw [hk2, List.take_succ_cons]
    exact List.mem_cons_self '\n' _
  rw [htake] at hmem
  exact absurd hmem (by decide)

/-- Fence-freedom of the text extracted between an opening fence at `s` and
the first closing fence at `e`. -/
theorem clean_fence_ended {response r : List Char} {s e : Nat}
    (hpre : fenceMarker <+: response.drop s)
    (hse : s + 3 ≤ e)
    (hmin : ∀ j, s + 3 ≤ j → j < e → pyStartsWith fenceMarker (response.drop j) = false)
    (haft : afterFirstNewline (pySlice response s e) = some r) :
    ¬fenceMarker <:+: pyStrip r := by
  intro hfin
  have hinr : fenceMarker <:+: r := hfin.trans (pyStrip_isInfix r)
  have hslice : pySlice response s e = (response.drop s).take (e - s) := rfl
  rcases afterFirstNewline_some haft with ⟨pre, hsplit, _⟩
  have hfenceslice : fenceMarker <+: pySlice response s e := by
    rw [hslice]
    exact prefix_take_of_le hpre (by show 3 ≤ e - s; omega)
  have hprelen : 3 ≤ pre.length := fence_pre_length hfenceslice hsplit
  have hrtake : r = (response.drop (s + (pre.length + 1))).take
      (e - s - (pre.length + 1)) := by
    have h1 : r = (pySlice response s e).drop (pre.length + 1) := by
      rw [hsplit, show pre ++ '\n' :: r = (pre ++ ['\n']) ++ r by simp,
        List.drop_left' (by simp)]
    rw [h1, hslice, List.drop_take, List.drop_drop]
  rcases infix_take_occurrence hrtake hinr with ⟨m, hmk, hoccm⟩
  rw [List.drop_drop] at hoccm
  have hflen : fenceMarker.length = 3 := rfl
  rw [hflen] at hmk
  have hmark := hmin (s + (pre.length + 1) + m) (by omega) (by omega)
  rw [hoccm] at hmark
  cases hmark

/-- Fence-freedom of the text extracted after an opening fence at `s` with no
closing fence. -/
theorem clean_fence_unended {response r : List Char} {s : Nat}
    (hpre : fenceMarker <+: response.drop s)
    (hnone : ∀ j, s + 3 ≤ j → pyStartsWith fenceMarker (response.drop j) = false)
    (haft : afterFirstNewline (response.drop s) = some r) :
    ¬fenceMarker <:+: pyStrip r := by
  intro hfin
  have hinr : fenceMarker <:+: r := hfin.trans (pyStrip_isInfix r)
  rcases afterFirstNewline_some haft with ⟨pre, hsplit, _⟩
  have hprelen : 3 ≤ pre.length := fence_pre_length hpre hsplit
  have hr : r = response.drop (s + (pre.length + 1)) := by
    have h1 : r = (response.drop s).drop (pre.length + 1) := by
      rw [hsplit, show pre ++ '\n' :: r = (pre ++ ['\n']) ++ r by simp,
        List.drop_left' (by simp)]
    rw [h1, List.drop_drop]
  rcases infix_iff_startsWith_drop.mp hinr with ⟨j, hj⟩
  rw [hr, List.drop_drop] at hj
  have hmark := hnone (s + (pre.length + 1) + j) (by omega)
  rw [hj] at hmark
  cases hmark

/-- The query extracted by `clean_sql_response` contains no fence marker. -/
theorem clean_sql_response_no_fence {response q0 : List Char}
    (h : clean_sql_response response = some q0) : ¬fenceMarker <:+: q0 := by
  rw [clean_sql_response] at h
  have hfne : fenceMarker ≠ [] := by decide
  cases hsql : pyFind response fenceSqlMarker 0 with
  | none =>
    cases hfen : pyFind response fenceMarker 0 with
    | none =>
      simp only [hsql, hfen, Option.map_some', Option.some.injEq] at h
      subst h
      apply normalize_query_no_fence
      intro hin
      have hin2 : fenceMarker <:+: response := hin.trans (pyStrip_isInfix response)
      rcases infix_iff_startsWith_drop.mp hin2 with ⟨j, hj⟩
      have := pyFind_none hfne hfen j (Nat.zero_le j)
      rw [hj] at this
      cases this
    | some s =>
      rcases pyFind_some hfen with ⟨_, hocc, _⟩
      have hpre : fenceMarker <+: response.drop s := pyStartsWith_iff.mp hocc
      cases hend : pyFind response fenceMarker (s + 3) with
      | some e =>
        simp only [hsql, hfen, hend] at h
        cases haft : afterFirstNewline (pySlice response s e) with
        | none => rw [haft] at h; cases h
        | some r =>
          rw [haft] at h
          simp only [Option.map_some', Option.some.injEq] at h
          subst h
          rcases pyFind_some hend with ⟨hse, _, hmin⟩
          exact normalize_query_no_fence (clean_fence_ended hpre hse hmin haft)
      | none =>
        simp only [hsql, hfen, hend] at h
        cases haft : afterFirstNewline (response.drop s) with
        | none => rw [haft] at h; cases h
        | some r =>
          rw [haft] at h
          simp only [Option.map_some', Option.some.injEq] at h
          subst h
          exact normalize_query_no_fence
            (clean_fence_unended hpre (pyFind_none hfne hend) haft)
  | some s =>
    rcases pyFind_some hsql with ⟨_, hocc, _⟩
    have hpre : fenceMarker <+: response.drop s := by
      have h1 : fenceMarker <+: fenceSqlMarker := by decide
      exact h1.trans (pyStartsWith_iff.mp hocc)
    cases hend : pyFind response fenceMarker (s + 3) with
    | some e =>
      simp only [hsql, hend] at h
      cases haft : afterFirstNewline (pySlice response s e) with
      | none => rw [haft] at h; cases h
      | some r =>
        rw [haft] at h
        simp only [Option.map_some', Option.some.injEq] at h
        subst h
        rcases pyFind_some hend with ⟨hse, _, hmin⟩
        exact normalize_query_no_fence (clean_fence_ended hpre hse hmin haft)
    | none =>
      simp only [hsql, hend] at h
      cases haft : afterFirstNewline (response.drop s) with
      | none => rw [haft] at h; cases h
      | some r =>
        rw [haft] at h
        simp only [Option.map_some', Option.some.injEq] at h
        subst h
        exact normalize_query_no_fence
          (clean_fence_unended hpre (pyFind_none hfne hend) haft)

/-- Every query produced by `clean_sql_response` is a normalised string. -/
theorem clean_sql_response_shape {response q0 : List Char}
    (h : clean_sql_response response = some q0) :
    ∃ x, q0 = normalize_query x := by
  rw [clean_sql_response] at h
  cases hsql : pyFind response fenceSqlMarker 0 with
  | none =>
    cases hfen : pyFind response fenceMarker 0 with
    | none =>
      simp only [hsql, hfen, Option.map_some', Option.some.injEq] at h
      exact ⟨pyStrip response, h.symm⟩
    | some s =>
      cases hend : pyFind response fenceMarker (s + 3) with
      | some e =>
        simp only [hsql, hfen, hend] at h
        cases haft : afterFirstNewline (pySlice response s e) with
        | none => rw [haft] at h; cases h
        | some r =>
          rw [haft] at h
          simp only [Option.map_some', Option.some.injEq] at h
          exact ⟨pyStrip r, h.symm⟩
      | none =>
        simp only [hsql, hfen, hend] at h
        cases haft : afterFirstNewline (response.drop s) with
        | none => rw [haft] at h; cases h
        | some r =>
          rw [haft] at h
          simp only [Option.map_some', Option.some.injEq] at h
          exact ⟨pyStrip r, h.symm⟩
  | some s =>
    cases hend : pyFind response fenceMarker (s + 3) with
    | some e =>
      simp only [hsql, hend] at h
      cases haft : afterFirstNewline (pySlice response s e) with
      | none => rw [haft] at h; cases h
      | some r =>
        rw [haft] at h
        simp only [Option.map_some', Option.some.injEq] at h
        exact ⟨pyStrip r, h.symm⟩
    | none =>
      simp only [hsql, hend] at h
      cases haft : afterFirstNewline (response.drop s) with
      | none => rw [haft] at h; cases h
      | some r =>
        rw [haft] at h
        simp only [Option.map_some', Option.some.injEq] at h
        exact ⟨pyStrip r, h.symm⟩


/-- C6: every query string produced by `generate_sql_query`'s response
post-processing contains no ``` fence, no embedded newline (`'\n'` or
`'\r'`), and no leading or trailing whitespace. -/
theorem C6_cleaned_query_normal_form (response q : List Char)
    (h : generate_sql_query_response (some response) = some q) :
    ¬fenceMarker <:+: q ∧ '\n' ∉ q ∧ '\r' ∉ q ∧ pyStrip q = q := by
  rw [generate_sql_query_response] at h
  by_cases hresp : response = []
  · rw [if_pos hresp] at h
    cases h
  · rw [if_neg hresp] at h
    rcases clean_sql_response_shape h with ⟨x, hq⟩
    refine ⟨clean_sql_response_no_fence h, ?_, ?_, ?_⟩
    · rw [hq]
      exact normalize_query_no_break (by decide)
    · rw [hq]
      exact normalize_query_no_break (by decide)
    · rw [hq]
      exact normalize_query_stripped x

/-- C6 witness: a fenced two-line completion cleans to a one-line query with
no fence, no newline and no outer whitespace. -/
theorem C6_cleaned_query_witness :
    generate_sql_query_response
        (some "```sql\nSELECT TOP 5 [Name]\nFROM [T]\n```".data) =
      some "SELECT TOP 5 [Name] FROM [T]".data ∧
    (¬fenceMarker <:+: "SELECT TOP 5 [Name] FROM [T]".data ∧
      '\n' ∉ "SELECT TOP 5 [Name] FROM [T]".data ∧
      '\r' ∉ "SELECT TOP 5 [Name] FROM [T]".data ∧
      pyStrip "SELECT TOP 5 [Name] FROM [T]".data =
        "SELECT TOP 5 [Name] FROM [T]".data) := by
  refine ⟨by decide, ?_⟩
  exact C6_cleaned_query_normal_form "```sql\nSELECT TOP 5 [Name]\nFROM [T]\n```".data
    "SELECT TOP 5 [Name] FROM [T]".data (by decide)

end TextToSql
